import Mathlib

/-!
Verification of the Nuke Multishot Toolset against its specification.

Python strings are modelled as `List Char` (`PyStr`).  Python's `str.strip`
is modelled by `pyStrip`, Python's `str.isalnum` by `Char.isAlphanum`
(the embedding restricts attention to the character classes the code
distinguishes).  Each definition is a direct translation of the function of
the same name in the repository's source.
-/

set_option maxHeartbeats 1000000

abbrev PyStr := List Char

/-- Model of the whitespace class used by Python's `str.strip`. -/
def pyIsSpace (c : Char) : Bool :=
  c = ' ' || c = Char.ofNat 9 || c = Char.ofNat 10 || c = Char.ofNat 13

/-- Model of Python's `str.strip()` (drop whitespace at both ends). -/
def pyStrip (s : PyStr) : PyStr :=
  ((s.dropWhile pyIsSpace).reverse.dropWhile pyIsSpace).reverse

/-- The character class `ch.isalnum() or ch in "_-"` used by the sanitizers. -/
def allowedNameChar (c : Char) : Bool :=
  c.isAlphanum || c = '_' || c = '-'

lemma pyIsSpace_not_allowed {c : Char} (h : pyIsSpace c = true) :
    allowedNameChar c = false := by
  simp only [pyIsSpace, Bool.or_eq_true, decide_eq_true_eq] at h
  rcases h with ((h | h) | h) | h <;> subst h <;> decide

lemma filter_allowed_dropWhile (s : PyStr) :
    (s.dropWhile pyIsSpace).filter allowedNameChar = s.filter allowedNameChar := by
  induction s with
  | nil => rfl
  | cons c cs ih =>
    by_cases h : pyIsSpace c = true
    · rw [List.dropWhile_cons_of_pos h, ih, List.filter_cons,
        pyIsSpace_not_allowed h]
      simp
    · rw [List.dropWhile_cons_of_neg h]

lemma filter_allowed_reverse (s : PyStr) :
    s.reverse.filter allowedNameChar = (s.filter allowedNameChar).reverse := by
  induction s with
  | nil => rfl
  | cons c cs ih =>
    simp [List.filter_append, List.filter_cons, ih]
    by_cases h : allowedNameChar c = true <;> simp [h]

lemma filter_allowed_pyStrip (s : PyStr) :
    (pyStrip s).filter allowedNameChar = s.filter allowedNameChar := by
  unfold pyStrip
  rw [filter_allowed_reverse, filter_allowed_dropWhile, filter_allowed_reverse,
    List.reverse_reverse, filter_allowed_dropWhile]

/-! ## gsv_utils string helpers -/

namespace GsvUtils

/-- `gsv_utils._normalized_options` loop body (the `for opt in options` loop,
with `seen` the set of already-kept strings and `clean` the accumulator). -/
def normalized_options_go (rem : List PyStr) (seen : List PyStr)
    (clean : List PyStr) : List PyStr :=
  match rem with
  | [] => clean
  | opt :: rest =>
    let text := pyStrip opt
    if text = [] ∨ text ∈ seen then normalized_options_go rest seen clean
    else normalized_options_go rest (text :: seen) (clean ++ [text])

/-- `gsv_utils._normalized_options`: deduplicated list of stripped,
non-empty option strings, order preserved. -/
def _normalized_options (options : List PyStr) : List PyStr :=
  normalized_options_go options [] []

end GsvUtils

/-- Spec-side pipeline for claim C2: keep the first occurrence of each
value, given the set `seen` of values already kept. -/
def keepFirsts (seen : List PyStr) : List PyStr → List PyStr
  | [] => []
  | x :: xs => if x ∈ seen then keepFirsts seen xs else x :: keepFirsts (x :: seen) xs

/-- Spec-side description of `_normalized_options` (claim C2): strip each
element, drop the empties, keep first occurrences. -/
def specNormalized (options : List PyStr) : List PyStr :=
  keepFirsts [] ((options.map pyStrip).filter (fun t => !(t = [] : Bool)))

lemma decide_list_eq_nil (t : PyStr) :
    (decide (t = []) = true) ↔ t = [] := by
  exact decide_eq_true_iff

lemma normalized_options_go_eq (rem : List PyStr) :
    ∀ seen clean, GsvUtils.normalized_options_go rem seen clean =
      clean ++ keepFirsts seen ((rem.map pyStrip).filter (fun t => !(t = [] : Bool))) := by
  induction rem with
  | nil => intro seen clean; simp [GsvUtils.normalized_options_go, keepFirsts]
  | cons opt rest ih =>
    intro seen clean
    rw [GsvUtils.normalized_options_go]
    by_cases hempty : pyStrip opt = []
    · rw [if_pos (Or.inl hempty)]
      rw [ih]
      simp [List.filter_cons, hempty]
    · by_cases hseen : pyStrip opt ∈ seen
      · rw [if_pos (Or.inr hseen)]
        rw [ih]
        have : (!((pyStrip opt = []) : Bool)) = true := by
          simp [hempty]
        simp only [List.map_cons, List.filter_cons, this, if_pos]
        rw [keepFirsts]
        rw [if_pos hseen]
      · rw [if_neg (by push_neg; exact ⟨hempty, hseen⟩)]
        rw [ih]
        have : (!((pyStrip opt = []) : Bool)) = true := by
          simp [hempty]
        simp only [List.map_cons, List.filter_cons, this, if_pos]
        rw [keepFirsts]
        rw [if_neg hseen]
        simp

lemma keepFirsts_not_mem_seen (l : List PyStr) :
    ∀ seen x, x ∈ keepFirsts seen l → x ∉ seen := by
  induction l with
  | nil => intro seen x h; simp [keepFirsts] at h
  | cons a as ih =>
    intro seen x h
    rw [keepFirsts] at h
    by_cases ha : a ∈ seen
    · rw [if_pos ha] at h; exact ih seen x h
    · rw [if_neg ha] at h
      rcases List.mem_cons.mp h with rfl | h
      · exact ha
      · intro hx
        exact ih (a :: seen) x h (List.mem_cons_of_mem a hx)

lemma keepFirsts_nodup (l : List PyStr) : ∀ seen, (keepFirsts seen l).Nodup := by
  induction l with
  | nil => intro seen; simp [keepFirsts]
  | cons a as ih =>
    intro seen
    rw [keepFirsts]
    by_cases ha : a ∈ seen
    · rw [if_pos ha]; exact ih seen
    · rw [if_neg ha]
      refine List.nodup_cons.mpr ⟨?_, ih (a :: seen)⟩
      intro hmem
      exact keepFirsts_not_mem_seen as (a :: seen) a hmem (List.mem_cons_self a seen)

lemma keepFirsts_subset (l : List PyStr) : ∀ seen x, x ∈ keepFirsts seen l → x ∈ l := by
  induction l with
  | nil => intro seen x h; simp [keepFirsts] at h
  | cons a as ih =>
    intro seen x h
    rw [keepFirsts] at h
    by_cases ha : a ∈ seen
    · rw [if_pos ha] at h; exact List.mem_cons_of_mem a (ih seen x h)
    · rw [if_neg ha] at h
      rcases List.mem_cons.mp h with rfl | h
      · exact List.mem_cons_self x as
      · exact List.mem_cons_of_mem a (ih (a :: seen) x h)

/-- Claim C2: `_normalized_options` strips each element, drops elements that
become empty, and keeps only the first occurrence of each distinct stripped
value in first-occurrence order; the result has no duplicates, no empty
strings, and every element is the stripped form of some input element. -/
theorem claim_C2_normalized_options (options : List PyStr) :
    GsvUtils._normalized_options options = specNormalized options ∧
    (GsvUtils._normalized_options options).Nodup ∧
    ∀ t ∈ GsvUtils._normalized_options options,
      t ≠ [] ∧ ∃ o ∈ options, t = pyStrip o := by
  have heq : GsvUtils._normalized_options options = specNormalized options := by
    unfold GsvUtils._normalized_options specNormalized
    rw [normalized_options_go_eq]
    simp
  refine ⟨heq, ?_, ?_⟩
  · rw [heq]; exact keepFirsts_nodup _ []
  · intro t ht
    rw [heq] at ht
    have hmem := keepFirsts_subset _ [] t ht
    rw [List.mem_filter] at hmem
    obtain ⟨hmap, hne⟩ := hmem
    obtain ⟨o, ho, rfl⟩ := List.mem_map.mp hmap
    refine ⟨?_, o, ho, rfl⟩
    intro hnil
    rw [hnil] at hne
    simp at hne

/-! ## The sanitizers (claim C3) -/

namespace SwitchManager

/-- `VariantSectionWidget._sanitize_name` (`text` is `Optional[str]`). -/
def _sanitize_name (text : Option PyStr) : PyStr :=
  (pyStrip (text.getD [])).filter allowedNameChar

/-- `VariantSectionWidget._sanitize_option`. -/
def _sanitize_option (text : Option PyStr) : PyStr :=
  (pyStrip (text.getD [])).filter allowedNameChar

end SwitchManager

namespace ScreensManager

/-- `ScreensManagerPanel._sanitize_screen_name` (no strip in the source:
it filters the raw text). -/
def _sanitize_screen_name (text : PyStr) : PyStr :=
  if text = [] then [] else text.filter allowedNameChar

end ScreensManager

/-- Claim C3: each sanitizer returns exactly the subsequence of the stripped
input consisting of the characters that are alphanumeric or an underscore or
a hyphen, in order. -/
theorem claim_C3_sanitizers (s : PyStr) :
    SwitchManager._sanitize_name (some s) = (pyStrip s).filter allowedNameChar ∧
    SwitchManager._sanitize_option (some s) = (pyStrip s).filter allowedNameChar ∧
    ScreensManager._sanitize_screen_name s = (pyStrip s).filter allowedNameChar := by
  refine ⟨rfl, rfl, ?_⟩
  unfold ScreensManager._sanitize_screen_name
  rw [filter_allowed_pyStrip]
  by_cases h : s = []
  · subst h; rfl
  · rw [if_neg h]

/-! ## Python dict model (association lists with unique keys maintained by
`dictSet`, first-match lookup) -/

def dictGet {α : Type} (d : List (PyStr × α)) (k : PyStr) : Option α :=
  match d with
  | [] => none
  | (k', v) :: rest => if k' = k then some v else dictGet rest k

def dictGetD {α : Type} (d : List (PyStr × α)) (k : PyStr) (dflt : α) : α :=
  (dictGet d k).getD dflt

/-- Python `d[k] = v`: replace in place, else append (insertion order). -/
def dictSet {α : Type} (d : List (PyStr × α)) (k : PyStr) (v : α) :
    List (PyStr × α) :=
  match d with
  | [] => [(k, v)]
  | (k', v') :: rest => if k' = k then (k', v) :: rest else (k', v') :: dictSet rest k v

/-- Python `del d[k]` (first occurrence). -/
def dictRemove {α : Type} (d : List (PyStr × α)) (k : PyStr) : List (PyStr × α) :=
  match d with
  | [] => []
  | (k', v') :: rest => if k' = k then rest else (k', v') :: dictRemove rest k

def dictKeys {α : Type} (d : List (PyStr × α)) : List PyStr := d.map Prod.fst

lemma dictGet_dictSet_self {α : Type} (d : List (PyStr × α)) (k : PyStr) (v : α) :
    dictGet (dictSet d k v) k = some v := by
  induction d with
  | nil => simp [dictSet, dictGet]
  | cons hd tl ih =>
    obtain ⟨k', v'⟩ := hd
    by_cases h : k' = k
    · simp [dictSet, dictGet, h]
    · simp [dictSet, dictGet, h, ih]

lemma dictGet_dictSet_ne {α : Type} (d : List (PyStr × α)) (k k' : PyStr) (v : α)
    (h : k' ≠ k) : dictGet (dictSet d k v) k' = dictGet d k' := by
  have hne : ¬(k = k') := fun hh => h hh.symm
  induction d with
  | nil =>
    simp [dictSet, dictGet, hne]
  | cons hd tl ih =>
    obtain ⟨k0, v0⟩ := hd
    rw [dictSet]
    by_cases h0 : k0 = k
    · rw [if_pos h0, dictGet, dictGet]
      subst h0
      rw [if_neg hne, if_neg hne]
    · rw [if_neg h0, dictGet, dictGet, ih]

lemma dictGet_eq_none_iff {α : Type} (d : List (PyStr × α)) (k : PyStr) :
    dictGet d k = none ↔ k ∉ dictKeys d := by
  induction d with
  | nil => simp [dictGet, dictKeys]
  | cons hd tl ih =>
    obtain ⟨k', v'⟩ := hd
    rw [dictGet]
    simp only [dictKeys, List.map_cons, List.mem_cons]
    by_cases h : k' = k
    · rw [if_pos h]
      constructor
      · intro hcontra; exact absurd hcontra (by simp)
      · intro hcontra; exact absurd (Or.inl h.symm) hcontra
    · rw [if_neg h]
      simp only [dictKeys] at ih
      rw [ih]
      constructor
      · intro hnm hor
        rcases hor with h1 | h2
        · exact h h1.symm
        · exact hnm h2
      · intro hnot hmem
        exact hnot (Or.inr hmem)

lemma dictSet_eq_append_of_not_mem {α : Type} (d : List (PyStr × α)) (k : PyStr)
    (v : α) (h : k ∉ dictKeys d) : dictSet d k v = d ++ [(k, v)] := by
  induction d with
  | nil => rfl
  | cons hd tl ih =>
    obtain ⟨k', v'⟩ := hd
    simp only [dictKeys, List.map_cons, List.mem_cons] at h
    push_neg at h
    rw [dictSet, if_neg (fun hh : k' = k => h.1 hh.symm), List.cons_append,
      ih h.2]

/-! ## GSV store model

A functioning host: the root `Gsv_Knob` is modelled as a record of the data
the knob methods read and write.  A host call that would raise on this store
(for example `getGsvValue` on a missing path) is modelled directly by the
defensive result of the `gsv_utils` wrapper that catches it. -/

structure GsvStore where
  value : List (PyStr × List (PyStr × PyStr))
  listOptions : List (PyStr × List PyStr)
  listTyped : List PyStr
  favorites : List (PyStr × Bool)

def defaultSetName : PyStr := "__default__".data

/-- Split a qualified GSV path `set.var` at the first dot. -/
def splitPath (p : PyStr) : PyStr × PyStr :=
  let pre := p.takeWhile (fun c => !(c = '.' : Bool))
  if pre.length = p.length then (defaultSetName, p)
  else (pre, p.drop (pre.length + 1))

def knobSetGsvValue (st : GsvStore) (path val : PyStr) : GsvStore :=
  let sv := splitPath path
  { st with value := dictSet st.value sv.1 (dictSet (dictGetD st.value sv.1 []) sv.2 val) }

def knobGetGsvValue (st : GsvStore) (path : PyStr) : Option PyStr :=
  let sv := splitPath path
  match dictGet st.value sv.1 with
  | none => none
  | some inner => dictGet inner sv.2

def knobSetListOptions (st : GsvStore) (path : PyStr) (opts : List PyStr) : GsvStore :=
  { st with listOptions := dictSet st.listOptions path opts }

def knobGetListOptions (st : GsvStore) (path : PyStr) : Option (List PyStr) :=
  dictGet st.listOptions path

def knobSetDataTypeList (st : GsvStore) (path : PyStr) : GsvStore :=
  { st with listTyped := if path ∈ st.listTyped then st.listTyped else st.listTyped ++ [path] }

def knobSetFavorite (st : GsvStore) (path : PyStr) (b : Bool) : GsvStore :=
  { st with favorites := dictSet st.favorites path b }

def knobAddGsvSet (st : GsvStore) (name : PyStr) : GsvStore :=
  if name ∈ dictKeys st.value then st
  else { st with value := st.value ++ [(name, [])] }

/-- `removeGsv(path)`: drop the variable (and its list options).  On a path
that does not exist the host raises; the caller `remove_variant` suppresses
that, so the composite is the identity there. -/
def knobRemoveGsv (st : GsvStore) (path : PyStr) : GsvStore :=
  let sv := splitPath path
  match dictGet st.value sv.1 with
  | none => st
  | some inner =>
    { st with value := dictSet st.value sv.1 (dictRemove inner sv.2),
              listOptions := dictRemove st.listOptions path }

namespace GsvUtils

def set_value (st : GsvStore) (path value : PyStr) : GsvStore :=
  knobSetGsvValue st path value

def get_value (st : GsvStore) (path : PyStr) : Option PyStr :=
  knobGetGsvValue st path

def set_list_options (st : GsvStore) (path : PyStr) (options : List PyStr) : GsvStore :=
  knobSetListOptions st path options

def get_list_options (st : GsvStore) (path : PyStr) : List PyStr :=
  (knobGetListOptions st path).getD []

def ensure_list_datatype (st : GsvStore) (path : PyStr) : GsvStore :=
  knobSetDataTypeList st path

def set_favorite (st : GsvStore) (path : PyStr) (b : Bool) : GsvStore :=
  knobSetFavorite st path b

def add_set (st : GsvStore) (name : PyStr) : GsvStore :=
  knobAddGsvSet st name

def get_knob_value (st : GsvStore) : List (PyStr × List (PyStr × PyStr)) :=
  st.value

def set_knob_value (st : GsvStore) (value_map : List (PyStr × List (PyStr × PyStr))) :
    GsvStore :=
  { st with value := value_map }

/-- `gsv_utils._variant_path`. -/
def _variant_path (variant_name : PyStr) : Option PyStr :=
  let variant := pyStrip variant_name
  if variant = [] then none else some (defaultSetName ++ '.' :: variant)

def remove_variant (st : GsvStore) (variant_name : PyStr) : GsvStore :=
  match _variant_path variant_name with
  | none => st
  | some path => knobRemoveGsv st path

/-- `gsv_utils.ensure_variant_list`. -/
def ensure_variant_list (st : GsvStore) (variant_name : PyStr)
    (options : List PyStr) (default_option : Option PyStr) : GsvStore :=
  match _variant_path variant_name with
  | none => st
  | some path =>
    match _normalized_options options with
    | [] => st
    | c :: cs =>
      let dflt := match default_option with
        | some d => if d ∈ c :: cs then d else c
        | none => c
      let st1 := set_value st path dflt
      let st2 := ensure_list_datatype st1 path
      let st3 := set_list_options st2 path (c :: cs)
      set_favorite st3 path true

def get_variant_options (st : GsvStore) (variant_name : PyStr) : List PyStr :=
  match _variant_path variant_name with
  | none => []
  | some path => get_list_options st path

def get_variant_value (st : GsvStore) (variant_name : PyStr) : Option PyStr :=
  match _variant_path variant_name with
  | none => none
  | some path => get_value st path

/-- `gsv_utils.ensure_option_sets` (applied to already collected options). -/
def ensure_option_sets (st : GsvStore) (option_names : List PyStr) : GsvStore :=
  (_normalized_options option_names).foldl (fun acc name => add_set acc name) st

end GsvUtils

/-! ## Claim C8 -/

lemma get_value_set_value (st : GsvStore) (p val : PyStr) :
    GsvUtils.get_value (GsvUtils.set_value st p val) p = some val := by
  unfold GsvUtils.get_value GsvUtils.set_value knobGetGsvValue knobSetGsvValue
  simp [dictGet_dictSet_self]

lemma get_value_ignores_aux (st : GsvStore) (p path : PyStr) (opts : List PyStr)
    (b : Bool) :
    GsvUtils.get_value (GsvUtils.set_favorite
      (GsvUtils.set_list_options (GsvUtils.ensure_list_datatype st path) path opts)
      path b) p = GsvUtils.get_value st p := by
  rfl

/-- Claim C8: `ensure_variant_list` writes nothing when the variant name
strips to empty or the options normalize to the empty list; otherwise the
value it selects and writes at `__default__.<variant>` is `default_option`
when that is one of the normalized options and the first normalized option
in every other case. -/
theorem claim_C8_ensure_variant_list (st : GsvStore) (variant_name : PyStr)
    (options : List PyStr) (default_option : Option PyStr) :
    (pyStrip variant_name = [] →
      GsvUtils.ensure_variant_list st variant_name options default_option = st) ∧
    (GsvUtils._normalized_options options = [] →
      GsvUtils.ensure_variant_list st variant_name options default_option = st) ∧
    (∀ c cs, pyStrip variant_name ≠ [] →
      GsvUtils._normalized_options options = c :: cs →
      GsvUtils.get_value
          (GsvUtils.ensure_variant_list st variant_name options default_option)
          (defaultSetName ++ '.' :: pyStrip variant_name) =
        some (match default_option with
              | some d => if d ∈ c :: cs then d else c
              | none => c)) := by
  refine ⟨?_, ?_, ?_⟩
  · intro h
    unfold GsvUtils.ensure_variant_list GsvUtils._variant_path
    simp [h]
  · intro h
    unfold GsvUtils.ensure_variant_list GsvUtils._variant_path
    by_cases hs : pyStrip variant_name = [] <;> simp [hs, h]
  · intro c cs hname hnorm
    have hpath : GsvUtils._variant_path variant_name =
        some (defaultSetName ++ '.' :: pyStrip variant_name) := by
      unfold GsvUtils._variant_path
      rw [if_neg hname]
    unfold GsvUtils.ensure_variant_list
    rw [hpath, hnorm]
    rw [get_value_ignores_aux, get_value_set_value]

/-- Witness for claim C8 at a concrete store and inputs. -/
theorem claim_C8_witness :
    GsvUtils.get_value
        (GsvUtils.ensure_variant_list ⟨[], [], [], []⟩ "screens".data
          ["a".data, "b".data] (some "b".data))
        (defaultSetName ++ '.' :: pyStrip "screens".data) =
      some "b".data := by
  have h := (claim_C8_ensure_variant_list ⟨[], [], [], []⟩ "screens".data
    ["a".data, "b".data] (some "b".data)).2.2
    "a".data ["b".data] (by decide) (by decide)
  simpa using h

/-! ## Claim C9: `merge_root_value` -/

/-- A Python value stored under a set name in `updates`: either a dict of
variables or something else (skipped by the `isinstance` check). -/
inductive PyVal where
  | dict (entries : List (PyStr × PyStr))
  | notDict
deriving DecidableEq

namespace GsvUtils

/-- The inner loop `for key, val in vars_map.items(): dst[key] = val`. -/
def innerMerge (dst : List (PyStr × PyStr)) (vars_map : List (PyStr × PyStr)) :
    List (PyStr × PyStr) :=
  vars_map.foldl (fun d kv => dictSet d kv.1 kv.2) dst

/-- The outer loop of `merge_root_value` over `updates.items()`:
`dst = current.setdefault(set_name, dict())` followed by the inner merge. -/
def mergeFold (cur : List (PyStr × List (PyStr × PyStr)))
    (updates : List (PyStr × PyVal)) : List (PyStr × List (PyStr × PyStr)) :=
  updates.foldl
    (fun cur su =>
      match su.2 with
      | PyVal.notDict => cur
      | PyVal.dict vars_map => dictSet cur su.1 (innerMerge (dictGetD cur su.1 []) vars_map))
    cur

/-- `gsv_utils.merge_root_value`. -/
def merge_root_value (st : GsvStore) (updates : List (PyStr × PyVal)) : GsvStore :=
  set_knob_value st (mergeFold (get_knob_value st) updates)

end GsvUtils

lemma innerMerge_not_mem (m : List (PyStr × PyStr)) :
    ∀ d k, k ∉ dictKeys m → dictGet (GsvUtils.innerMerge d m) k = dictGet d k := by
  induction m with
  | nil => intro d k _; rfl
  | cons kv m' ih =>
    intro d k hk
    obtain ⟨k0, v0⟩ := kv
    simp only [dictKeys, List.map_cons, List.mem_cons] at hk
    push_neg at hk
    show dictGet (GsvUtils.innerMerge (dictSet d k0 v0) m') k = dictGet d k
    rw [ih (dictSet d k0 v0) k hk.2, dictGet_dictSet_ne d k0 k v0 hk.1]

lemma innerMerge_mem (m : List (PyStr × PyStr)) :
    ∀ d k v, (dictKeys m).Nodup → dictGet m k = some v →
      dictGet (GsvUtils.innerMerge d m) k = some v := by
  induction m with
  | nil => intro d k v _ h; simp [dictGet] at h
  | cons kv m' ih =>
    intro d k v hnd hget
    obtain ⟨k0, v0⟩ := kv
    simp only [dictKeys, List.map_cons, List.nodup_cons] at hnd
    rw [dictGet] at hget
    show dictGet (GsvUtils.innerMerge (dictSet d k0 v0) m') k = some v
    by_cases h0 : k0 = k
    · rw [if_pos h0] at hget
      injection hget with hv
      subst h0; subst hv
      rw [innerMerge_not_mem m' _ k0 hnd.1, dictGet_dictSet_self]
    · rw [if_neg h0] at hget
      exact ih (dictSet d k0 v0) k v hnd.2 hget

lemma mergeFold_not_mem (updates : List (PyStr × PyVal)) :
    ∀ cur s, s ∉ dictKeys updates →
      dictGet (GsvUtils.mergeFold cur updates) s = dictGet cur s := by
  induction updates with
  | nil => intro cur s _; rfl
  | cons su rest ih =>
    intro cur s hs
    obtain ⟨s0, val⟩ := su
    simp only [dictKeys, List.map_cons, List.mem_cons] at hs
    push_neg at hs
    cases val with
    | notDict =>
      show dictGet (GsvUtils.mergeFold cur rest) s = dictGet cur s
      exact ih cur s hs.2
    | dict m =>
      show dictGet (GsvUtils.mergeFold
        (dictSet cur s0 (GsvUtils.innerMerge (dictGetD cur s0 []) m)) rest) s = dictGet cur s
      rw [ih _ s hs.2, dictGet_dictSet_ne _ _ _ _ hs.1]

lemma mergeFold_dict (updates : List (PyStr × PyVal)) :
    ∀ cur s m, (dictKeys updates).Nodup → dictGet updates s = some (PyVal.dict m) →
      dictGet (GsvUtils.mergeFold cur updates) s =
        some (GsvUtils.innerMerge (dictGetD cur s []) m) := by
  induction updates with
  | nil => intro cur s m _ h; simp [dictGet] at h
  | cons su rest ih =>
    intro cur s m hnd hget
    obtain ⟨s0, val⟩ := su
    simp only [dictKeys, List.map_cons, List.nodup_cons] at hnd
    rw [dictGet] at hget
    by_cases h0 : s0 = s
    · rw [if_pos h0] at hget
      injection hget with hval
      subst h0; subst hval
      show dictGet (GsvUtils.mergeFold
        (dictSet cur s0 (GsvUtils.innerMerge (dictGetD cur s0 []) m)) rest) s0 =
        some (GsvUtils.innerMerge (dictGetD cur s0 []) m)
      rw [mergeFold_not_mem rest _ s0 hnd.1, dictGet_dictSet_self]
    · rw [if_neg h0] at hget
      cases val with
      | notDict =>
        show dictGet (GsvUtils.mergeFold cur rest) s =
          some (GsvUtils.innerMerge (dictGetD cur s []) m)
        exact ih cur s m hnd.2 hget
      | dict m0 =>
        show dictGet (GsvUtils.mergeFold
          (dictSet cur s0 (GsvUtils.innerMerge (dictGetD cur s0 []) m0)) rest) s =
          some (GsvUtils.innerMerge (dictGetD cur s []) m)
        rw [ih _ s m hnd.2 hget]
        unfold dictGetD
        rw [dictGet_dictSet_ne _ _ _ _ (fun hh => h0 hh.symm)]
  
lemma mergeFold_notdict (updates : List (PyStr × PyVal)) :
    ∀ cur s, (dictKeys updates).Nodup → dictGet updates s = some PyVal.notDict →
      dictGet (GsvUtils.mergeFold cur updates) s = dictGet cur s := by
  induction updates with
  | nil => intro cur s _ h; simp [dictGet] at h
  | cons su rest ih =>
    intro cur s hnd hget
    obtain ⟨s0, val⟩ := su
    simp only [dictKeys, List.map_cons, List.nodup_cons] at hnd
    rw [dictGet] at hget
    by_cases h0 : s0 = s
    · rw [if_pos h0] at hget
      injection hget with hval
      subst h0
      rw [hval]
      show dictGet (GsvUtils.mergeFold cur rest) s0 = dictGet cur s0
      exact mergeFold_not_mem rest cur s0 hnd.1
    · rw [if_neg h0] at hget
      cases val with
      | notDict =>
        show dictGet (GsvUtils.mergeFold cur rest) s = dictGet cur s
        exact ih cur s hnd.2 hget
      | dict m0 =>
        show dictGet (GsvUtils.mergeFold
          (dictSet cur s0 (GsvUtils.innerMerge (dictGetD cur s0 []) m0)) rest) s = dictGet cur s
        rw [ih _ s hnd.2 hget, dictGet_dictSet_ne _ _ _ _ (fun hh => h0 hh.symm)]

/-- Claim C9: `merge_root_value` only touches the keys named in `updates`:
sets absent from `updates` keep their prior variable map, keys absent from an
updated set's map keep their prior value, every `(set, key)` pair of a dict
update appears with its update value, and non-dict update entries are
ignored. -/
theorem claim_C9_merge_root_value (st : GsvStore) (updates : List (PyStr × PyVal))
    (hupd : (dictKeys updates).Nodup) :
    (∀ s, dictGet updates s = none →
      dictGet (GsvUtils.merge_root_value st updates).value s = dictGet st.value s) ∧
    (∀ s, dictGet updates s = some PyVal.notDict →
      dictGet (GsvUtils.merge_root_value st updates).value s = dictGet st.value s) ∧
    (∀ s m, dictGet updates s = some (PyVal.dict m) →
      (∀ k, dictGet m k = none →
        dictGet (dictGetD (GsvUtils.merge_root_value st updates).value s []) k =
          dictGet (dictGetD st.value s []) k) ∧
      ((dictKeys m).Nodup → ∀ k v, dictGet m k = some v →
        dictGet (dictGetD (GsvUtils.merge_root_value st updates).value s []) k = some v)) := by
  have hval : (GsvUtils.merge_root_value st updates).value =
      GsvUtils.mergeFold st.value updates := rfl
  refine ⟨?_, ?_, ?_⟩
  · intro s hs
    rw [hval]
    exact mergeFold_not_mem updates st.value s ((dictGet_eq_none_iff updates s).mp hs)
  · intro s hs
    rw [hval]
    exact mergeFold_notdict updates st.value s hupd hs
  · intro s m hs
    have hres : dictGet (GsvUtils.merge_root_value st updates).value s =
        some (GsvUtils.innerMerge (dictGetD st.value s []) m) := by
      rw [hval]
      exact mergeFold_dict updates st.value s m hupd hs
    constructor
    · intro k hk
      unfold dictGetD
      rw [hres]
      show dictGet (GsvUtils.innerMerge (dictGetD st.value s []) m) k = _
      rw [innerMerge_not_mem m _ k ((dictGet_eq_none_iff m k).mp hk)]
      rfl
    · intro hm k v hk
      unfold dictGetD
      rw [hres]
      exact innerMerge_mem m _ k v hm hk

/-- Witness for claim C9 at a concrete store and update set. -/
theorem claim_C9_witness :
    dictGet (GsvUtils.merge_root_value
        ⟨[("__default__".data, [("screens".data, "a".data)]),
          ("Other".data, [("x".data, "1".data)])], [], [], []⟩
        [("__default__".data, PyVal.dict [("screens".data, "b".data)])]).value
      "Other".data =
      some [("x".data, "1".data)] ∧
    dictGet (dictGetD (GsvUtils.merge_root_value
        ⟨[("__default__".data, [("screens".data, "a".data)]),
          ("Other".data, [("x".data, "1".data)])], [], [], []⟩
        [("__default__".data, PyVal.dict [("screens".data, "b".data)])]).value
      "__default__".data []) "screens".data = some "b".data := by
  have h := claim_C9_merge_root_value
    ⟨[("__default__".data, [("screens".data, "a".data)]),
      ("Other".data, [("x".data, "1".data)])], [], [], []⟩
    [("__default__".data, PyVal.dict [("screens".data, "b".data)])]
    (by decide)
  refine ⟨?_, ?_⟩
  · rw [h.1 "Other".data (by decide)]
    decide
  · exact (h.2.2 "__default__".data [("screens".data, "b".data)] (by decide)).2
      (by decide) "screens".data "b".data (by decide)

/-! ## Switch Manager UI model (claims C4, C5, C7)

A `VariantSectionWidget` is modelled by the texts its Qt editors hold:
the variant name line edit, one text per option row, and the current
selection combo box. -/

structure Section where
  variantText : PyStr
  rowTexts : List PyStr
  comboText : PyStr

namespace SwitchManager

/-- `VariantSectionWidget.variant_name`. -/
def variant_name (sec : Section) : PyStr :=
  _sanitize_name (some sec.variantText)

/-- The `for row in self._iter_rows()` loop of `collect_options`. -/
def collect_options_go (rem : List PyStr) (seen : List PyStr)
    (options : List PyStr) : List PyStr :=
  match rem with
  | [] => options
  | t :: rest =>
    let name := _sanitize_option (some t)
    if name ≠ [] ∧ name ∉ seen then
      collect_options_go rest (name :: seen) (options ++ [name])
    else collect_options_go rest seen options

/-- `VariantSectionWidget.collect_options`. -/
def collect_options (sec : Section) : List PyStr :=
  collect_options_go sec.rowTexts [] []

/-- `VariantSectionWidget.current_selection`. -/
def current_selection (sec : Section) : Option PyStr :=
  let text := pyStrip sec.comboText
  if text ≠ [] then some text
  else match collect_options sec with
       | [] => none
       | o :: _ => some o

/-- `VariantSectionWidget.is_syncable`. -/
def is_syncable (sec : Section) : Bool :=
  !(decide (variant_name sec = [])) && !(decide (collect_options sec = []))

end SwitchManager

namespace GsvUtils

/-- The `for raw_name in default_set.keys()` loop of `discover_list_variants`
(`variants[name] = options` is `dictSet`; the iteration order is the
insertion order of the `__default__` dict). -/
def discover_go (st : GsvStore) (rem : List (PyStr × PyStr))
    (variants : List (PyStr × List PyStr)) : List (PyStr × List PyStr) :=
  match rem with
  | [] => variants
  | kv :: rest =>
    match _variant_path kv.1 with
    | none => discover_go st rest variants
    | some path =>
      let options := get_list_options st path
      if options = [] then discover_go st rest variants
      else discover_go st rest (dictSet variants kv.1 options)

/-- `gsv_utils.discover_list_variants`. -/
def discover_list_variants (st : GsvStore) : List (PyStr × List PyStr) :=
  discover_go st (dictGetD st.value defaultSetName []) []

end GsvUtils

namespace SwitchManager

/-- The first loop of `SwitchManagerPanel._gsv_state_matches_ui`, building
`section_map` with its two early `False` returns (`none` here). -/
def build_section_map (rem : List Section) (section_map : List (PyStr × Section)) :
    Option (List (PyStr × Section)) :=
  match rem with
  | [] => some section_map
  | sec :: rest =>
    let name := variant_name sec
    let options := collect_options sec
    if name = [] ∧ (options.any (fun o => !(decide (o = [])))) = true then none
    else if name = [] then build_section_map rest section_map
    else if name ∈ dictKeys section_map then none
    else build_section_map rest (dictSet section_map name sec)

/-- Model of `set(a) == set(b)` on key lists. -/
def keysEqAsSets (a b : List PyStr) : Bool :=
  decide (∀ n ∈ a, n ∈ b) && decide (∀ n ∈ b, n ∈ a)

/-- `SwitchManagerPanel._gsv_state_matches_ui`. -/
def _gsv_state_matches_ui (st : GsvStore) (sections : List Section) : Bool :=
  let gsv_variants := GsvUtils.discover_list_variants st
  match build_section_map sections [] with
  | none => false
  | some section_map =>
    if keysEqAsSets (dictKeys section_map) (dictKeys gsv_variants) = false then false
    else section_map.all (fun nsec =>
      decide (collect_options nsec.2 = dictGetD gsv_variants nsec.1 []) &&
      decide (pyStrip ((current_selection nsec.2).getD []) =
        pyStrip ((GsvUtils.get_variant_value st nsec.1).getD [])))

end SwitchManager

/-- The non-empty sanitized section names, in order. -/
def nonEmptyNames (sections : List Section) : List PyStr :=
  (sections.map SwitchManager.variant_name).filter (fun n => !(decide (n = [])))

/-- The `(name, section)` pairs that `_gsv_state_matches_ui` collects. -/
def sectionPairs (sections : List Section) : List (PyStr × Section) :=
  sections.filterMap (fun sec =>
    if SwitchManager.variant_name sec = [] then none
    else some (SwitchManager.variant_name sec, sec))

/-- The declarative reading of claim C4. -/
def c4Spec (st : GsvStore) (sections : List Section) : Prop :=
  (∀ sec ∈ sections, SwitchManager.variant_name sec = [] →
    SwitchManager.collect_options sec = []) ∧
  (nonEmptyNames sections).Nodup ∧
  (∀ n, n ∈ nonEmptyNames sections ↔
    n ∈ dictKeys (GsvUtils.discover_list_variants st)) ∧
  (∀ sec ∈ sections, SwitchManager.variant_name sec ≠ [] →
    SwitchManager.collect_options sec =
      dictGetD (GsvUtils.discover_list_variants st) (SwitchManager.variant_name sec) [] ∧
    pyStrip ((SwitchManager.current_selection sec).getD []) =
      pyStrip ((GsvUtils.get_variant_value st (SwitchManager.variant_name sec)).getD []))

lemma collect_options_go_ne_nil (rem : List PyStr) :
    ∀ seen opts, (∀ o ∈ opts, o ≠ ([] : PyStr)) →
      ∀ o ∈ SwitchManager.collect_options_go rem seen opts, o ≠ [] := by
  induction rem with
  | nil => intro seen opts h o ho; exact h o ho
  | cons t rest ih =>
    intro seen opts h o ho
    rw [SwitchManager.collect_options_go] at ho
    by_cases hc : SwitchManager._sanitize_option (some t) ≠ [] ∧
        SwitchManager._sanitize_option (some t) ∉ seen
    · rw [if_pos hc] at ho
      refine ih _ _ ?_ o ho
      intro o' ho'
      rcases List.mem_append.mp ho' with h1 | h2
      · exact h o' h1
      · rw [List.mem_singleton.mp h2]; exact hc.1
    · rw [if_neg hc] at ho
      exact ih _ _ h o ho

lemma collect_options_ne_nil (sec : Section) :
    ∀ o ∈ SwitchManager.collect_options sec, o ≠ [] := by
  intro o ho
  exact collect_options_go_ne_nil sec.rowTexts [] [] (by intro o' h; simp at h) o ho

lemma any_nonempty_iff (options : List PyStr) (h : ∀ o ∈ options, o ≠ ([] : PyStr)) :
    (options.any (fun o => !(decide (o = [])))) = true ↔ options ≠ [] := by
  cases options with
  | nil => simp
  | cons o rest =>
    simp only [List.any_cons, Bool.or_eq_true]
    constructor
    · intro _; exact List.cons_ne_nil o rest
    · intro _
      left
      have := h o (List.mem_cons_self o rest)
      simp [this]

lemma nonEmptyNames_cons_nil {sec : Section} (rest : List Section)
    (h : SwitchManager.variant_name sec = []) :
    nonEmptyNames (sec :: rest) = nonEmptyNames rest := by
  simp [nonEmptyNames, List.filter_cons, h]

lemma nonEmptyNames_cons_ne {sec : Section} (rest : List Section)
    (h : SwitchManager.variant_name sec ≠ []) :
    nonEmptyNames (sec :: rest) =
      SwitchManager.variant_name sec :: nonEmptyNames rest := by
  simp [nonEmptyNames, List.filter_cons, h]

lemma sectionPairs_cons_nil {sec : Section} (rest : List Section)
    (h : SwitchManager.variant_name sec = []) :
    sectionPairs (sec :: rest) = sectionPairs rest := by
  simp [sectionPairs, List.filterMap_cons, h]

lemma sectionPairs_cons_ne {sec : Section} (rest : List Section)
    (h : SwitchManager.variant_name sec ≠ []) :
    sectionPairs (sec :: rest) =
      (SwitchManager.variant_name sec, sec) :: sectionPairs rest := by
  simp [sectionPairs, List.filterMap_cons, h]

lemma dictKeys_sectionPairs (sections : List Section) :
    dictKeys (sectionPairs sections) = nonEmptyNames sections := by
  induction sections with
  | nil => rfl
  | cons sec rest ih =>
    by_cases h : SwitchManager.variant_name sec = []
    · rw [sectionPairs_cons_nil rest h, nonEmptyNames_cons_nil rest h, ih]
    · rw [sectionPairs_cons_ne rest h, nonEmptyNames_cons_ne rest h]
      simp only [dictKeys, List.map_cons]
      rw [← ih]
      rfl

lemma mem_sectionPairs (sections : List Section) (p : PyStr × Section) :
    p ∈ sectionPairs sections ↔
      ∃ sec ∈ sections, SwitchManager.variant_name sec ≠ [] ∧
        p = (SwitchManager.variant_name sec, sec) := by
  induction sections with
  | nil => simp [sectionPairs]
  | cons sec rest ih =>
    by_cases h : SwitchManager.variant_name sec = []
    · rw [sectionPairs_cons_nil rest h]
      rw [ih]
      constructor
      · rintro ⟨s, hs, hne, rfl⟩
        exact ⟨s, List.mem_cons_of_mem sec hs, hne, rfl⟩
      · rintro ⟨s, hs, hne, rfl⟩
        rcases List.mem_cons.mp hs with rfl | hs'
        · exact absurd h hne
        · exact ⟨s, hs', hne, rfl⟩
    · rw [sectionPairs_cons_ne rest h]
      rw [List.mem_cons, ih]
      constructor
      · rintro (rfl | ⟨s, hs, hne, rfl⟩)
        · exact ⟨sec, List.mem_cons_self sec rest, h, rfl⟩
        · exact ⟨s, List.mem_cons_of_mem sec hs, hne, rfl⟩
      · rintro ⟨s, hs, hne, rfl⟩
        rcases List.mem_cons.mp hs with rfl | hs'
        · exact Or.inl rfl
        · exact Or.inr ⟨s, hs', hne, rfl⟩

lemma bsm_sound (sections : List Section) :
    ∀ acc m, (dictKeys acc).Nodup →
      SwitchManager.build_section_map sections acc = some m →
      (∀ sec ∈ sections, SwitchManager.variant_name sec = [] →
        SwitchManager.collect_options sec = []) ∧
      (dictKeys acc ++ nonEmptyNames sections).Nodup ∧
      m = acc ++ sectionPairs sections := by
  induction sections with
  | nil =>
    intro acc m hacc hb
    rw [SwitchManager.build_section_map] at hb
    injection hb with hm
    refine ⟨by intro s hs; simp at hs, ?_, ?_⟩
    · simpa [nonEmptyNames] using hacc
    · rw [← hm]; simp [sectionPairs]
  | cons sec rest ih =>
    intro acc m hacc hb
    rw [SwitchManager.build_section_map] at hb
    by_cases hn : SwitchManager.variant_name sec = []
    · have hany : ((SwitchManager.collect_options sec).any
          (fun o => !(decide (o = [])))) = false := by
        by_contra hcontra
        rw [Bool.not_eq_false] at hcontra
        rw [if_pos ⟨hn, hcontra⟩] at hb
        exact Option.noConfusion hb
      have hopts : SwitchManager.collect_options sec = [] := by
        by_contra hne
        exact absurd ((any_nonempty_iff _ (collect_options_ne_nil sec)).mpr hne)
          (by rw [hany]; simp)
      rw [if_neg (by intro hcontra; rw [hany] at hcontra; exact Bool.noConfusion hcontra.2),
        if_pos hn] at hb
      obtain ⟨h1, h2, h3⟩ := ih acc m hacc hb
      refine ⟨?_, ?_, ?_⟩
      · intro s hs hnames
        rcases List.mem_cons.mp hs with rfl | hs'
        · exact hopts
        · exact h1 s hs' hnames
      · rwa [nonEmptyNames_cons_nil rest hn]
      · rwa [sectionPairs_cons_nil rest hn]
    · rw [if_neg (fun hcontra => hn hcontra.1), if_neg hn] at hb
      by_cases hmem : SwitchManager.variant_name sec ∈ dictKeys acc
      · rw [if_pos hmem] at hb
        exact Option.noConfusion hb
      · rw [if_neg hmem] at hb
        have hset := dictSet_eq_append_of_not_mem acc
          (SwitchManager.variant_name sec) sec hmem
        have hkeys : dictKeys (dictSet acc (SwitchManager.variant_name sec) sec) =
            dictKeys acc ++ [SwitchManager.variant_name sec] := by
          rw [hset]; simp [dictKeys]
        have hacc' : (dictKeys (dictSet acc (SwitchManager.variant_name sec) sec)).Nodup := by
          rw [hkeys, List.nodup_append]
          exact ⟨hacc, List.nodup_singleton _, by
            intro x hx hx'
            rw [List.mem_singleton] at hx'
            subst hx'
            exact hmem hx⟩
        obtain ⟨h1, h2, h3⟩ := ih _ m hacc' hb
        rw [hkeys] at h2
        refine ⟨?_, ?_, ?_⟩
        · intro s hs hnames
          rcases List.mem_cons.mp hs with rfl | hs'
          · exact absurd hnames hn
          · exact h1 s hs' hnames
        · rw [nonEmptyNames_cons_ne rest hn]
          rwa [List.append_assoc, List.singleton_append] at h2
        · rw [sectionPairs_cons_ne rest hn, h3, hset]
          simp

lemma bsm_complete (sections : List Section) :
    ∀ acc, (dictKeys acc).Nodup →
      (∀ sec ∈ sections, SwitchManager.variant_name sec = [] →
        SwitchManager.collect_options sec = []) →
      (dictKeys acc ++ nonEmptyNames sections).Nodup →
      SwitchManager.build_section_map sections acc =
        some (acc ++ sectionPairs sections) := by
  induction sections with
  | nil =>
    intro acc _ _ _
    rw [SwitchManager.build_section_map]
    simp [sectionPairs]
  | cons sec rest ih =>
    intro acc hacc h1 h2
    rw [SwitchManager.build_section_map]
    by_cases hn : SwitchManager.variant_name sec = []
    · have hopts := h1 sec (List.mem_cons_self sec rest) hn
      have hany : ((SwitchManager.collect_options sec).any
          (fun o => !(decide (o = [])))) = false := by
        rw [hopts]; rfl
      rw [if_neg (fun hc => by rw [hany] at hc; exact Bool.noConfusion hc.2),
        if_pos hn]
      rw [nonEmptyNames_cons_nil rest hn] at h2
      rw [sectionPairs_cons_nil rest hn]
      exact ih acc hacc (fun s hs => h1 s (List.mem_cons_of_mem _ hs)) h2
    · rw [if_neg (fun hc => hn hc.1), if_neg hn]
      rw [nonEmptyNames_cons_ne rest hn] at h2
      have hmem : SwitchManager.variant_name sec ∉ dictKeys acc := by
        intro hc
        rw [List.nodup_append] at h2
        exact h2.2.2 hc (List.mem_cons_self _ _)
      rw [if_neg hmem]
      have hset := dictSet_eq_append_of_not_mem acc
        (SwitchManager.variant_name sec) sec hmem
      have hkeys : dictKeys (dictSet acc (SwitchManager.variant_name sec) sec) =
          dictKeys acc ++ [SwitchManager.variant_name sec] := by
        rw [hset]; simp [dictKeys]
      have hsub : (dictKeys acc ++ [SwitchManager.variant_name sec]).Sublist
          (dictKeys acc ++ SwitchManager.variant_name sec :: nonEmptyNames rest) := by
        refine List.Sublist.append_left ?_ _
        exact List.cons_sublist_cons.mpr (List.nil_sublist _)
      have hacc' : (dictKeys (dictSet acc (SwitchManager.variant_name sec) sec)).Nodup := by
        rw [hkeys]
        exact List.Nodup.sublist hsub h2
      have h2' : (dictKeys (dictSet acc (SwitchManager.variant_name sec) sec) ++
          nonEmptyNames rest).Nodup := by
        rw [hkeys, List.append_assoc, List.singleton_append]
        exact h2
      rw [ih _ hacc' (fun s hs => h1 s (List.mem_cons_of_mem _ hs)) h2']
      rw [sectionPairs_cons_ne rest hn, hset]
      simp

lemma keysEqAsSets_iff (a b : List PyStr) :
    SwitchManager.keysEqAsSets a b = true ↔ ∀ n, n ∈ a ↔ n ∈ b := by
  unfold SwitchManager.keysEqAsSets
  rw [Bool.and_eq_true, decide_eq_true_iff, decide_eq_true_iff]
  constructor
  · rintro ⟨h1, h2⟩ n
    exact ⟨fun h => h1 n h, fun h => h2 n h⟩
  · intro h
    exact ⟨fun n hn => (h n).mp hn, fun n hn => (h n).mpr hn⟩

lemma matches_ui_of_bsm_none (st : GsvStore) (sections : List Section)
    (h : SwitchManager.build_section_map sections [] = none) :
    SwitchManager._gsv_state_matches_ui st sections = false := by
  rw [SwitchManager._gsv_state_matches_ui, h]

lemma matches_ui_of_bsm_some (st : GsvStore) (sections : List Section)
    (m : List (PyStr × Section))
    (h : SwitchManager.build_section_map sections [] = some m) :
    SwitchManager._gsv_state_matches_ui st sections =
      (if SwitchManager.keysEqAsSets (dictKeys m)
            (dictKeys (GsvUtils.discover_list_variants st)) = false then false
       else m.all (fun nsec =>
        decide (SwitchManager.collect_options nsec.2 =
          dictGetD (GsvUtils.discover_list_variants st) nsec.1 []) &&
        decide (pyStrip ((SwitchManager.current_selection nsec.2).getD []) =
          pyStrip ((GsvUtils.get_variant_value st nsec.1).getD [])))) := by
  rw [SwitchManager._gsv_state_matches_ui, h]

/-- Claim C4: `_gsv_state_matches_ui` returns `true` exactly when no section
with an empty sanitized name has options, no two sections share a non-empty
name, the non-empty section names coincide with the discovered list-variant
names as sets, and for each such name the collected options and the stripped
current selection agree with the store. -/
theorem claim_C4_gsv_state_matches_ui (st : GsvStore) (sections : List Section) :
    SwitchManager._gsv_state_matches_ui st sections = true ↔ c4Spec st sections := by
  cases hbsm : SwitchManager.build_section_map sections [] with
  | none =>
    rw [matches_ui_of_bsm_none st sections hbsm]
    constructor
    · intro h; exact Bool.noConfusion h
    · intro hspec
      obtain ⟨h1, h2, h3, h4⟩ := hspec
      have hcomp := bsm_complete sections [] (by simp [dictKeys]) h1
        (by simpa [dictKeys] using h2)
      rw [hbsm] at hcomp
      exact Option.noConfusion hcomp
  | some m =>
    obtain ⟨hC1, hC2, hm⟩ := bsm_sound sections [] m (by simp [dictKeys]) hbsm
    rw [List.nil_append] at hm
    subst hm
    rw [matches_ui_of_bsm_some st sections _ hbsm]
    constructor
    · intro hmatch
      have hkeq : SwitchManager.keysEqAsSets (dictKeys (sectionPairs sections))
          (dictKeys (GsvUtils.discover_list_variants st)) = true := by
        by_contra hk
        rw [Bool.not_eq_true] at hk
        rw [if_pos hk] at hmatch
        exact Bool.noConfusion hmatch
      rw [if_neg (by rw [hkeq]; exact fun h => Bool.noConfusion h)] at hmatch
      refine ⟨hC1, by simpa [dictKeys] using hC2, ?_, ?_⟩
      · intro n
        have := (keysEqAsSets_iff _ _).mp hkeq n
        rwa [dictKeys_sectionPairs] at this
      · intro sec hsec hne
        have hp : (SwitchManager.variant_name sec, sec) ∈ sectionPairs sections :=
          (mem_sectionPairs _ _).mpr ⟨sec, hsec, hne, rfl⟩
        have := List.all_eq_true.mp hmatch _ hp
        simpa [Bool.and_eq_true, decide_eq_true_eq] using this
    · intro hspec
      obtain ⟨h1, h2, h3, h4⟩ := hspec
      have hkeq : SwitchManager.keysEqAsSets (dictKeys (sectionPairs sections))
          (dictKeys (GsvUtils.discover_list_variants st)) = true := by
        refine (keysEqAsSets_iff _ _).mpr ?_
        intro n
        rw [dictKeys_sectionPairs]
        exact h3 n
      rw [if_neg (by rw [hkeq]; exact fun h => Bool.noConfusion h)]
      rw [List.all_eq_true]
      intro p hp
      obtain ⟨s, hs, hne, rfl⟩ := (mem_sectionPairs _ _).mp hp
      have := h4 s hs hne
      simp [Bool.and_eq_true, decide_eq_true_eq, this.1, this.2]

/-! ## Claim C5: `_on_sync` -/

/-- The `gsv_utils` calls `_on_sync` makes at the section/variant level. -/
inductive SyncOp where
  | apply (sec : Section)
  | remove (variant : PyStr)

namespace SwitchManager

/-- `VariantSectionWidget.apply_to_gsv` acting on the store. -/
def apply_to_gsv (st : GsvStore) (sec : Section) : GsvStore :=
  let variant := variant_name sec
  let options := collect_options sec
  if variant = [] ∨ options = [] then st
  else GsvUtils.ensure_option_sets
    (GsvUtils.ensure_variant_list st variant options (current_selection sec)) options

/-- The `for section in self._section_widgets()` loop of `_on_sync`,
instrumented with the trace of applied sections; the boolean is
`wrote_any` after the loop. -/
def on_sync_apply_loop : GsvStore → List Section → GsvStore × List SyncOp × Bool
  | st, [] => (st, [], false)
  | st, sec :: rest =>
    if is_syncable sec = true then
      let r := on_sync_apply_loop (apply_to_gsv st sec) rest
      (r.1, SyncOp.apply sec :: r.2.1, true)
    else on_sync_apply_loop st rest

/-- The names added to `synced_variants` during the loop. -/
def syncedNames (sections : List Section) : List PyStr :=
  (sections.filter (fun sec => is_syncable sec)).map variant_name

/-- `SwitchManagerPanel._on_sync` on the store: returns the final store, the
trace of per-variant operations, and `wrote_any` (which gates the
`_load_from_gsv` reload; the reload itself only reads the store). -/
def on_sync (st : GsvStore) (sections : List Section) : GsvStore × List SyncOp × Bool :=
  let existing_variants := dictKeys (GsvUtils.discover_list_variants st)
  let r := on_sync_apply_loop st sections
  let removed_variants := existing_variants.filter
    (fun v => !(decide (v ∈ syncedNames sections)))
  let st2 := removed_variants.foldl (fun acc v => GsvUtils.remove_variant acc v) r.1
  (st2, r.2.1 ++ removed_variants.map SyncOp.remove,
    r.2.2 || !(decide (removed_variants = [])))

end SwitchManager

lemma on_sync_loop_ops (sections : List Section) :
    ∀ st, (SwitchManager.on_sync_apply_loop st sections).2.1 =
      (sections.filter (fun sec => SwitchManager.is_syncable sec)).map SyncOp.apply := by
  induction sections with
  | nil => intro st; rfl
  | cons sec rest ih =>
    intro st
    rw [SwitchManager.on_sync_apply_loop]
    by_cases h : SwitchManager.is_syncable sec = true
    · rw [if_pos h, List.filter_cons, if_pos h, List.map_cons, ← ih]
    · rw [if_neg h, List.filter_cons, if_neg h, ih]

lemma on_sync_loop_wrote (sections : List Section) :
    ∀ st, (SwitchManager.on_sync_apply_loop st sections).2.2 =
      sections.any (fun sec => SwitchManager.is_syncable sec) := by
  induction sections with
  | nil => intro st; rfl
  | cons sec rest ih =>
    intro st
    rw [SwitchManager.on_sync_apply_loop, List.any_cons]
    by_cases h : SwitchManager.is_syncable sec = true
    · rw [if_pos h, h, Bool.true_or]
    · rw [if_neg h, ih st]
      rw [Bool.not_eq_true] at h
      rw [h, Bool.false_or]

lemma on_sync_loop_store (sections : List Section) :
    ∀ st, (∀ sec ∈ sections, SwitchManager.is_syncable sec = false) →
      (SwitchManager.on_sync_apply_loop st sections).1 = st := by
  induction sections with
  | nil => intro st _; rfl
  | cons sec rest ih =>
    intro st h
    rw [SwitchManager.on_sync_apply_loop]
    rw [if_neg (by rw [h sec (List.mem_cons_self sec rest)]; exact Bool.noConfusion)]
    exact ih st (fun s hs => h s (List.mem_cons_of_mem _ hs))

/-- Claim C5: `_on_sync` applies exactly the syncable sections and removes,
via `remove_variant`, exactly the pre-existing list variants whose name no
synced section carries; non-syncable sections contribute no operation; and
when `wrote_any` is false (no reload), nothing was applied or removed and
the store is unchanged. -/
theorem claim_C5_on_sync (st : GsvStore) (sections : List Section) :
    ((SwitchManager.on_sync st sections).2.1 =
      ((sections.filter (fun sec => SwitchManager.is_syncable sec)).map SyncOp.apply) ++
      (((dictKeys (GsvUtils.discover_list_variants st)).filter
        (fun v => !(decide (v ∈ SwitchManager.syncedNames sections)))).map SyncOp.remove)) ∧
    ((SwitchManager.on_sync st sections).2.2 = false ↔
      (SwitchManager.on_sync st sections).2.1 = []) ∧
    ((SwitchManager.on_sync st sections).2.2 = false →
      (SwitchManager.on_sync st sections).1 = st) := by
  have hops : (SwitchManager.on_sync st sections).2.1 =
      ((sections.filter (fun sec => SwitchManager.is_syncable sec)).map SyncOp.apply) ++
      (((dictKeys (GsvUtils.discover_list_variants st)).filter
        (fun v => !(decide (v ∈ SwitchManager.syncedNames sections)))).map SyncOp.remove) := by
    show (SwitchManager.on_sync_apply_loop st sections).2.1 ++ _ = _
    rw [on_sync_loop_ops]
  have hwrote : (SwitchManager.on_sync st sections).2.2 =
      ((sections.any (fun sec => SwitchManager.is_syncable sec)) ||
        !(decide (((dictKeys (GsvUtils.discover_list_variants st)).filter
          (fun v => !(decide (v ∈ SwitchManager.syncedNames sections)))) = []))) := by
    show ((SwitchManager.on_sync_apply_loop st sections).2.2 || _) = _
    rw [on_sync_loop_wrote]
  refine ⟨hops, ?_, ?_⟩
  · rw [hops, hwrote]
    rw [Bool.or_eq_false_iff, List.append_eq_nil]
    constructor
    · rintro ⟨h1, h2⟩
      simp at h2
      constructor
      · rw [List.map_eq_nil_iff, List.filter_eq_nil_iff]
        intro sec hsec
        exact List.any_eq_false.mp h1 sec hsec
      · rw [List.map_eq_nil_iff, List.filter_eq_nil_iff]
        intro v hv
        simp [h2 v hv]
    · rintro ⟨h1, h2⟩
      rw [List.map_eq_nil_iff, List.filter_eq_nil_iff] at h1
      rw [List.map_eq_nil_iff] at h2
      constructor
      · rw [List.any_eq_false]
        exact h1
      · simp [h2]
  · intro hfalse
    rw [hwrote, Bool.or_eq_false_iff] at hfalse
    obtain ⟨h1, h2⟩ := hfalse
    simp at h2
    have hfilter : ((dictKeys (GsvUtils.discover_list_variants st)).filter
        (fun v => !(decide (v ∈ SwitchManager.syncedNames sections)))) = [] := by
      rw [List.filter_eq_nil_iff]
      intro v hv
      simp [h2 v hv]
    show (((dictKeys (GsvUtils.discover_list_variants st)).filter
      (fun v => !(decide (v ∈ SwitchManager.syncedNames sections)))).foldl
        (fun acc v => GsvUtils.remove_variant acc v)
        (SwitchManager.on_sync_apply_loop st sections).1) = st
    rw [hfilter, List.foldl_nil]
    refine on_sync_loop_store sections st ?_
    intro sec hsec
    have := List.any_eq_false.mp h1 sec hsec
    rwa [Bool.not_eq_true] at this

/-- Witness for claim C5: an empty panel over an empty store writes and
removes nothing and leaves the store unchanged. -/
theorem claim_C5_witness :
    (SwitchManager.on_sync ⟨[], [], [], []⟩ []).1 = ⟨[], [], [], []⟩ :=
  (claim_C5_on_sync ⟨[], [], [], []⟩ []).2.2 (by decide)

/-! ## Claim C1: defensive wrappers over a fallible host

Here the host is modelled by its failure behaviour: every `Gsv_Knob` method
either returns a result or raises (`Except.error ()`), and `nuke.root()["gsv"]`
may itself be unavailable.  Each `gsv_utils` function returns
`Except Unit _`: an `Except.error` result would model a propagated
exception; the theorems show none is ever produced. -/

/-- Result of `gsv.getListOptions`: an iterable of options or a non-iterable
value (the `isinstance(opts, Iterable)` check). -/
inductive PyIterResult where
  | iter (xs : List PyStr)
  | notIter

/-- One entry of `gsv.value()`: a dict of variables or something else
(dropped by the `isinstance(v, dict)` check). -/
inductive RootEntry where
  | dict (vars : List (PyStr × PyStr))
  | notDict

/-- Result of `gsv.value()`: a dict or something else. -/
inductive RootVal where
  | dict (entries : List (PyStr × RootEntry))
  | notDict

/-- The root `Gsv_Knob` with every method allowed to raise. -/
structure FKnob where
  getGsvValue : PyStr → Except Unit PyStr
  setGsvValue : PyStr → PyStr → Except Unit Unit
  getListOptions : PyStr → Except Unit PyIterResult
  setListOptions : PyStr → List PyStr → Except Unit Unit
  setDataType : PyStr → Except Unit Unit
  setFavorite : PyStr → Bool → Except Unit Unit
  value : Except Unit RootVal
  setValue : List (PyStr × List (PyStr × PyStr)) → Except Unit Unit
  addGsvSet : PyStr → Except Unit Unit
  removeGsv : Option (PyStr → Except Unit Unit)

/-- The host: `get_root_gsv_knob()` yields the knob or `None`. -/
structure FHost where
  rootGsv : Option FKnob

namespace GsvUtilsF

def get_root_gsv_knob (h : FHost) : Option FKnob := h.rootGsv

def ensure_list_datatype (h : FHost) (path : PyStr) : Except Unit Unit :=
  match get_root_gsv_knob h with
  | none => .ok ()
  | some gsv =>
    match gsv.setDataType path with
    | .error _ => .ok ()
    | .ok _ => .ok ()

def set_list_options (h : FHost) (path : PyStr) (options : List PyStr) :
    Except Unit Unit :=
  match get_root_gsv_knob h with
  | none => .ok ()
  | some gsv =>
    match gsv.setListOptions path options with
    | .error _ => .ok ()
    | .ok _ => .ok ()

def get_list_options (h : FHost) (path : PyStr) : Except Unit (List PyStr) :=
  match get_root_gsv_knob h with
  | none => .ok []
  | some gsv =>
    match gsv.getListOptions path with
    | .error _ => .ok []
    | .ok (.iter xs) => .ok xs
    | .ok .notIter => .ok []

def set_value (h : FHost) (path value : PyStr) : Except Unit Unit :=
  match get_root_gsv_knob h with
  | none => .ok ()
  | some gsv =>
    match gsv.setGsvValue path value with
    | .error _ => .ok ()
    | .ok _ => .ok ()

def get_value (h : FHost) (path : PyStr) : Except Unit (Option PyStr) :=
  match get_root_gsv_knob h with
  | none => .ok none
  | some gsv =>
    match gsv.getGsvValue path with
    | .error _ => .ok none
    | .ok v => .ok (some v)

def set_favorite (h : FHost) (path : PyStr) (is_favorite : Bool) :
    Except Unit Unit :=
  match get_root_gsv_knob h with
  | none => .ok ()
  | some gsv =>
    match gsv.setFavorite path is_favorite with
    | .error _ => .ok ()
    | .ok _ => .ok ()

def add_set (h : FHost) (set_name : PyStr) : Except Unit Unit :=
  match get_root_gsv_knob h with
  | none => .ok ()
  | some gsv =>
    match gsv.addGsvSet set_name with
    | .error _ => .ok ()
    | .ok _ => .ok ()

def get_knob_value (h : FHost) :
    Except Unit (List (PyStr × List (PyStr × PyStr))) :=
  match get_root_gsv_knob h with
  | none => .ok []
  | some gsv =>
    match gsv.value with
    | .error _ => .ok []
    | .ok RootVal.notDict => .ok []
    | .ok (RootVal.dict entries) =>
      .ok (entries.filterMap (fun kv =>
        match kv.2 with
        | RootEntry.dict vars => some (kv.1, vars)
        | RootEntry.notDict => none))

def set_knob_value (h : FHost)
    (value_map : List (PyStr × List (PyStr × PyStr))) : Except Unit Unit :=
  match get_root_gsv_knob h with
  | none => .ok ()
  | some gsv =>
    match gsv.setValue value_map with
    | .error _ => .ok ()
    | .ok _ => .ok ()

def remove_variant (h : FHost) (variant_name : PyStr) : Except Unit Unit :=
  match GsvUtils._variant_path variant_name with
  | none => .ok ()
  | some path =>
    match get_root_gsv_knob h with
    | none => .ok ()
    | some gsv =>
      match gsv.removeGsv with
      | none => .ok ()
      | some remove =>
        match remove path with
        | .error _ => .ok ()
        | .ok _ => .ok ()

def get_variant_options (h : FHost) (variant_name : PyStr) :
    Except Unit (List PyStr) :=
  match GsvUtils._variant_path variant_name with
  | none => .ok []
  | some path => get_list_options h path

def get_variant_value (h : FHost) (variant_name : PyStr) :
    Except Unit (Option PyStr) :=
  match GsvUtils._variant_path variant_name with
  | none => .ok none
  | some path => get_value h path

end GsvUtilsF

/-- Claim C1: every embedded `gsv_utils` wrapper is total over the fallible
host: setters return `None` as no-ops, getters never propagate an exception,
and when the root knob is missing or a knob method raises, the getters
return their documented defaults (`None`, `[]`, or the empty mapping). -/
theorem claim_C1_defensive_wrappers (h : FHost) (path value variant_name : PyStr)
    (options : List PyStr) (is_favorite : Bool)
    (value_map : List (PyStr × List (PyStr × PyStr))) :
    (GsvUtilsF.set_value h path value = Except.ok () ∧
     GsvUtilsF.set_list_options h path options = Except.ok () ∧
     GsvUtilsF.ensure_list_datatype h path = Except.ok () ∧
     GsvUtilsF.set_favorite h path is_favorite = Except.ok () ∧
     GsvUtilsF.set_knob_value h value_map = Except.ok () ∧
     GsvUtilsF.add_set h path = Except.ok () ∧
     GsvUtilsF.remove_variant h variant_name = Except.ok ()) ∧
    ((GsvUtilsF.get_value h path).isOk = true ∧
     (GsvUtilsF.get_variant_value h variant_name).isOk = true ∧
     (GsvUtilsF.get_list_options h path).isOk = true ∧
     (GsvUtilsF.get_variant_options h variant_name).isOk = true ∧
     (GsvUtilsF.get_knob_value h).isOk = true) ∧
    (h.rootGsv = none →
      GsvUtilsF.get_value h path = Except.ok none ∧
      GsvUtilsF.get_variant_value h variant_name = Except.ok none ∧
      GsvUtilsF.get_list_options h path = Except.ok [] ∧
      GsvUtilsF.get_variant_options h variant_name = Except.ok [] ∧
      GsvUtilsF.get_knob_value h = Except.ok []) ∧
    (∀ gsv, h.rootGsv = some gsv →
      (gsv.getGsvValue path = Except.error () →
        GsvUtilsF.get_value h path = Except.ok none) ∧
      (gsv.getListOptions path = Except.error () →
        GsvUtilsF.get_list_options h path = Except.ok []) ∧
      (gsv.value = Except.error () → GsvUtilsF.get_knob_value h = Except.ok []) ∧
      (gsv.getGsvValue (defaultSetName ++ '.' :: pyStrip variant_name) =
          Except.error () →
        GsvUtilsF.get_variant_value h variant_name = Except.ok none) ∧
      (gsv.getListOptions (defaultSetName ++ '.' :: pyStrip variant_name) =
          Except.error () →
        GsvUtilsF.get_variant_options h variant_name = Except.ok [])) := by
  refine ⟨⟨?_, ?_, ?_, ?_, ?_, ?_, ?_⟩, ⟨?_, ?_, ?_, ?_, ?_⟩, ?_, ?_⟩
  · cases hr : h.rootGsv with
    | none => simp [GsvUtilsF.set_value, GsvUtilsF.get_root_gsv_knob, hr]
    | some gsv =>
      cases hm : gsv.setGsvValue path value <;>
        simp [GsvUtilsF.set_value, GsvUtilsF.get_root_gsv_knob, hr, hm]
  · cases hr : h.rootGsv with
    | none => simp [GsvUtilsF.set_list_options, GsvUtilsF.get_root_gsv_knob, hr]
    | some gsv =>
      cases hm : gsv.setListOptions path options <;>
        simp [GsvUtilsF.set_list_options, GsvUtilsF.get_root_gsv_knob, hr, hm]
  · cases hr : h.rootGsv with
    | none => simp [GsvUtilsF.ensure_list_datatype, GsvUtilsF.get_root_gsv_knob, hr]
    | some gsv =>
      cases hm : gsv.setDataType path <;>
        simp [GsvUtilsF.ensure_list_datatype, GsvUtilsF.get_root_gsv_knob, hr, hm]
  · cases hr : h.rootGsv with
    | none => simp [GsvUtilsF.set_favorite, GsvUtilsF.get_root_gsv_knob, hr]
    | some gsv =>
      cases hm : gsv.setFavorite path is_favorite <;>
        simp [GsvUtilsF.set_favorite, GsvUtilsF.get_root_gsv_knob, hr, hm]
  · cases hr : h.rootGsv with
    | none => simp [GsvUtilsF.set_knob_value, GsvUtilsF.get_root_gsv_knob, hr]
    | some gsv =>
      cases hm : gsv.setValue value_map <;>
        simp [GsvUtilsF.set_knob_value, GsvUtilsF.get_root_gsv_knob, hr, hm]
  · cases hr : h.rootGsv with
    | none => simp [GsvUtilsF.add_set, GsvUtilsF.get_root_gsv_knob, hr]
    | some gsv =>
      cases hm : gsv.addGsvSet path <;>
        simp [GsvUtilsF.add_set, GsvUtilsF.get_root_gsv_knob, hr, hm]
  · cases hp : GsvUtils._variant_path variant_name with
    | none => simp [GsvUtilsF.remove_variant, hp]
    | some p =>
      cases hr : h.rootGsv with
      | none => simp [GsvUtilsF.remove_variant, GsvUtilsF.get_root_gsv_knob, hp, hr]
      | some gsv =>
        cases hrg : gsv.removeGsv with
        | none =>
          simp [GsvUtilsF.remove_variant, GsvUtilsF.get_root_gsv_knob, hp, hr, hrg]
        | some rem =>
          cases hm : rem p <;>
            simp [GsvUtilsF.remove_variant, GsvUtilsF.get_root_gsv_knob, hp, hr, hrg, hm]
  · cases hr : h.rootGsv with
    | none => simp [GsvUtilsF.get_value, GsvUtilsF.get_root_gsv_knob, Except.isOk, Except.toBool, hr]
    | some gsv =>
      cases hm : gsv.getGsvValue path <;>
        simp [GsvUtilsF.get_value, GsvUtilsF.get_root_gsv_knob, Except.isOk, Except.toBool, hr, hm]
  · cases hp : GsvUtils._variant_path variant_name with
    | none => simp [GsvUtilsF.get_variant_value, Except.isOk, Except.toBool, hp]
    | some p =>
      cases hr : h.rootGsv with
      | none =>
        simp [GsvUtilsF.get_variant_value, GsvUtilsF.get_value,
          GsvUtilsF.get_root_gsv_knob, Except.isOk, Except.toBool, hp, hr]
      | some gsv =>
        cases hm : gsv.getGsvValue p <;>
          simp [GsvUtilsF.get_variant_value, GsvUtilsF.get_value,
            GsvUtilsF.get_root_gsv_knob, Except.isOk, Except.toBool, hp, hr, hm]
  · cases hr : h.rootGsv with
    | none => simp [GsvUtilsF.get_list_options, GsvUtilsF.get_root_gsv_knob, Except.isOk, Except.toBool, hr]
    | some gsv =>
      cases hm : gsv.getListOptions path with
      | error e =>
        simp [GsvUtilsF.get_list_options, GsvUtilsF.get_root_gsv_knob, Except.isOk, Except.toBool, hr, hm]
      | ok r =>
        cases r <;>
          simp [GsvUtilsF.get_list_options, GsvUtilsF.get_root_gsv_knob, Except.isOk, Except.toBool, hr, hm]
  · cases hp : GsvUtils._variant_path variant_name with
    | none => simp [GsvUtilsF.get_variant_options, Except.isOk, Except.toBool, hp]
    | some p =>
      cases hr : h.rootGsv with
      | none =>
        simp [GsvUtilsF.get_variant_options, GsvUtilsF.get_list_options,
          GsvUtilsF.get_root_gsv_knob, Except.isOk, Except.toBool, hp, hr]
      | some gsv =>
        cases hm : gsv.getListOptions p with
        | error e =>
          simp [GsvUtilsF.get_variant_options, GsvUtilsF.get_list_options,
            GsvUtilsF.get_root_gsv_knob, Except.isOk, Except.toBool, hp, hr, hm]
        | ok r =>
          cases r <;>
            simp [GsvUtilsF.get_variant_options, GsvUtilsF.get_list_options,
              GsvUtilsF.get_root_gsv_knob, Except.isOk, Except.toBool, hp, hr, hm]
  · cases hr : h.rootGsv with
    | none => simp [GsvUtilsF.get_knob_value, GsvUtilsF.get_root_gsv_knob, Except.isOk, Except.toBool, hr]
    | some gsv =>
      cases hm : gsv.value with
      | error e =>
        simp [GsvUtilsF.get_knob_value, GsvUtilsF.get_root_gsv_knob, Except.isOk, Except.toBool, hr, hm]
      | ok r =>
        cases r <;>
          simp [GsvUtilsF.get_knob_value, GsvUtilsF.get_root_gsv_knob, Except.isOk, Except.toBool, hr, hm]
  · intro hr
    refine ⟨?_, ?_, ?_, ?_, ?_⟩
    · simp [GsvUtilsF.get_value, GsvUtilsF.get_root_gsv_knob, hr]
    · cases hp : GsvUtils._variant_path variant_name with
      | none => simp [GsvUtilsF.get_variant_value, hp]
      | some p =>
        simp [GsvUtilsF.get_variant_value, GsvUtilsF.get_value,
          GsvUtilsF.get_root_gsv_knob, hp, hr]
    · simp [GsvUtilsF.get_list_options, GsvUtilsF.get_root_gsv_knob, hr]
    · cases hp : GsvUtils._variant_path variant_name with
      | none => simp [GsvUtilsF.get_variant_options, hp]
      | some p =>
        simp [GsvUtilsF.get_variant_options, GsvUtilsF.get_list_options,
          GsvUtilsF.get_root_gsv_knob, hp, hr]
    · simp [GsvUtilsF.get_knob_value, GsvUtilsF.get_root_gsv_knob, hr]
  · intro gsv hr
    refine ⟨?_, ?_, ?_, ?_, ?_⟩
    · intro herr
      simp [GsvUtilsF.get_value, GsvUtilsF.get_root_gsv_knob, hr, herr]
    · intro herr
      simp [GsvUtilsF.get_list_options, GsvUtilsF.get_root_gsv_knob, hr, herr]
    · intro herr
      simp [GsvUtilsF.get_knob_value, GsvUtilsF.get_root_gsv_knob, hr, herr]
    · intro herr
      by_cases hs : pyStrip variant_name = []
      · simp [GsvUtilsF.get_variant_value, GsvUtils._variant_path, hs]
      · simp [GsvUtilsF.get_variant_value, GsvUtils._variant_path, hs,
          GsvUtilsF.get_value, GsvUtilsF.get_root_gsv_knob, hr, herr]
    · intro herr
      by_cases hs : pyStrip variant_name = []
      · simp [GsvUtilsF.get_variant_options, GsvUtils._variant_path, hs]
      · simp [GsvUtilsF.get_variant_options, GsvUtils._variant_path, hs,
          GsvUtilsF.get_list_options, GsvUtilsF.get_root_gsv_knob, hr, herr]

/-- A knob on which every method raises. -/
def failKnob : FKnob where
  getGsvValue := fun _ => .error ()
  setGsvValue := fun _ _ => .error ()
  getListOptions := fun _ => .error ()
  setListOptions := fun _ _ => .error ()
  setDataType := fun _ => .error ()
  setFavorite := fun _ _ => .error ()
  value := .error ()
  setValue := fun _ => .error ()
  addGsvSet := fun _ => .error ()
  removeGsv := some (fun _ => .error ())

/-- Witness for claim C1: concrete failing hosts. -/
theorem claim_C1_witness :
    GsvUtilsF.get_value ⟨some failKnob⟩ "p".data = Except.ok none ∧
    GsvUtilsF.get_knob_value ⟨(none : Option FKnob)⟩ = Except.ok [] ∧
    GsvUtilsF.set_value ⟨some failKnob⟩ "p".data "v".data = Except.ok () := by
  refine ⟨?_, ?_, ?_⟩
  · exact ((claim_C1_defensive_wrappers ⟨some failKnob⟩ "p".data "v".data
      "n".data [] true []).2.2.2 failKnob rfl).1 rfl
  · exact ((claim_C1_defensive_wrappers ⟨(none : Option FKnob)⟩ "p".data "v".data
      "n".data [] true []).2.2.1 rfl).2.2.2.2
  · exact (claim_C1_defensive_wrappers ⟨some failKnob⟩ "p".data "v".data
      "n".data [] true []).1.1

/-! ## Claim C6: `encapsulate_write_with_variable_group` guard

The target node is modelled by what the guard code reads from it:
`target.Class()` and `target.knobs()` (either may raise).  The node-graph
work after the guard (collapse, knob promotion, styling) neither creates the
wrapper before the guard passes nor changes the returned value, so it is
modelled by the host primitive `collapseToVariableGroup`, the call that
creates the `VariableGroup`. -/

structure C6Node where
  klass : Except Unit PyStr
  knobNames : Except Unit (List PyStr)

structure VGroup where
  id : Nat
deriving DecidableEq

structure C6Host where
  selectedNode : Except Unit C6Node
  collapseToVariableGroup : C6Node → Option VGroup

inductive C6Event where
  | message (text : PyStr)
  | createdVariableGroup
deriving DecidableEq

/-- The `has_publish_knob` computation of the guard. -/
def hasPublishKnob (target : C6Node) : Bool :=
  match target.knobNames with
  | .error _ => false
  | .ok names => decide ("publish_instance".data ∈ names)

namespace RenderHooks

/-- The body of `encapsulate_write_with_variable_group` from the class check
onwards, instrumented with the user messages shown and the wrapper-creation
event. -/
def encapsulate_target (h : C6Host) (target : C6Node) :
    Option VGroup × List C6Event :=
  match target.klass with
  | .error _ =>
    (none, [C6Event.message "Unable to determine node class".data])
  | .ok node_class =>
    if node_class ≠ "Write".data ∧
        ¬(node_class = "Group".data ∧ hasPublishKnob target = true) then
      (none,
        [C6Event.message
          "Select a Write node or a Group with a publish_instance knob".data])
    else
      match h.collapseToVariableGroup target with
      | none => (none, [])
      | some group => (some group, [C6Event.createdVariableGroup])

/-- `render_hooks.encapsulate_write_with_variable_group` (argument handling:
`node` or the current selection). -/
def encapsulate_write_with_variable_group (h : C6Host) (node : Option C6Node) :
    Option VGroup × List C6Event :=
  match node with
  | none =>
    match h.selectedNode with
    | .error _ => (none, [C6Event.message "Select a Write node first".data])
    | .ok target => encapsulate_target h target
  | some target => encapsulate_target h target

end RenderHooks

/-- Claim C6: a target whose class is neither `Write` nor a `Group` with a
`publish_instance` knob yields `None` with only a user message and no
`VariableGroup`; a wrapper-creation event occurs only for a `Write` node or
a publishable `Group`. -/
theorem claim_C6_encapsulate_guard (h : C6Host) (target : C6Node)
    (node : Option C6Node) :
    (∀ c, target.klass = Except.ok c → c ≠ "Write".data →
      ¬(c = "Group".data ∧ hasPublishKnob target = true) →
      RenderHooks.encapsulate_write_with_variable_group h (some target) =
        (none,
          [C6Event.message
            "Select a Write node or a Group with a publish_instance knob".data])) ∧
    (C6Event.createdVariableGroup ∈
        (RenderHooks.encapsulate_write_with_variable_group h node).2 →
      ∃ t c, (node = some t ∨ (node = none ∧ h.selectedNode = Except.ok t)) ∧
        t.klass = Except.ok c ∧
        (c = "Write".data ∨ (c = "Group".data ∧ hasPublishKnob t = true))) := by
  constructor
  · intro c hc hw hg
    show RenderHooks.encapsulate_target h target = _
    simp only [RenderHooks.encapsulate_target, hc]
    rw [if_pos ⟨hw, hg⟩]
  · have hmain : ∀ t, C6Event.createdVariableGroup ∈
        (RenderHooks.encapsulate_target h t).2 →
        ∃ c, t.klass = Except.ok c ∧
          (c = "Write".data ∨ (c = "Group".data ∧ hasPublishKnob t = true)) := by
      intro t hmem
      cases hk : t.klass with
      | error e =>
        simp only [RenderHooks.encapsulate_target, hk] at hmem
        simp at hmem
      | ok c =>
        simp only [RenderHooks.encapsulate_target, hk] at hmem
        by_cases hguard : c ≠ "Write".data ∧
            ¬(c = "Group".data ∧ hasPublishKnob t = true)
        · rw [if_pos hguard] at hmem
          simp at hmem
        · refine ⟨c, rfl, ?_⟩
          push_neg at hguard
          by_cases hcw : c = "Write".data
          · exact Or.inl hcw
          · exact Or.inr (hguard hcw)
    intro hmem
    cases node with
    | some t =>
      obtain ⟨c, hc, hor⟩ := hmain t hmem
      exact ⟨t, c, Or.inl rfl, hc, hor⟩
    | none =>
      rw [RenderHooks.encapsulate_write_with_variable_group] at hmem
      cases hs : h.selectedNode with
      | error e => rw [hs] at hmem; simp at hmem
      | ok t =>
        rw [hs] at hmem
        obtain ⟨c, hc, hor⟩ := hmain t hmem
        exact ⟨t, c, Or.inr ⟨rfl, rfl⟩, hc, hor⟩

/-- Witness for claim C6: a `Grade` node is refused with only a message. -/
theorem claim_C6_witness :
    RenderHooks.encapsulate_write_with_variable_group
        ⟨Except.error (), fun _ => some ⟨0⟩⟩
        (some ⟨Except.ok "Grade".data, Except.ok []⟩) =
      (none,
        [C6Event.message
          "Select a Write node or a Group with a publish_instance knob".data]) :=
  (claim_C6_encapsulate_guard ⟨Except.error (), fun _ => some ⟨0⟩⟩
      ⟨Except.ok "Grade".data, Except.ok []⟩
      (some ⟨Except.ok "Grade".data, Except.ok []⟩)).1
    "Grade".data rfl (by decide) (by decide)

/-! ## Claim C10: whitelist toggle naming round-trip -/

/-- The single-quote character (written via its code point). -/
def quoteChar : Char := Char.ofNat 39

/-- The regex class `[0-9A-Za-z_]` of `_toggle_knob_name`. -/
def isWordChar (c : Char) : Bool :=
  (decide ('0' ≤ c) && decide (c ≤ '9')) ||
  (decide ('A' ≤ c) && decide (c ≤ 'Z')) ||
  (decide ('a' ≤ c) && decide (c ≤ 'z')) ||
  decide (c = '_')

namespace RenderHooks

/-- `re.sub(r"[^0-9A-Za-z_]+", "_", s)`: each maximal run of non-word
characters becomes a single underscore (`prevBad` records whether the
previous character belonged to such a run). -/
def subNonWordRuns : Bool → PyStr → PyStr
  | _, [] => []
  | prevBad, c :: cs =>
    if isWordChar c then c :: subNonWordRuns false cs
    else if prevBad then subNonWordRuns true cs
    else '_' :: subNonWordRuns true cs

def togglePrefixStr : PyStr := "bcn_whitelist__".data

/-- `render_hooks._toggle_knob_name`. -/
def _toggle_knob_name (knob_name : PyStr) : PyStr :=
  let safe0 := subNonWordRuns false (pyStrip knob_name)
  let safe := if safe0 = [] then "item".data else safe0
  togglePrefixStr ++ safe

/-- `render_hooks._whitelist_tooltip`. -/
def _whitelist_tooltip (knob_name : PyStr) : PyStr :=
  "Expose the ".data ++ quoteChar :: (knob_name ++ quoteChar :: " knob on this wrapper".data)

/-- Strip a literal from the front of a string (`none` on mismatch). -/
def dropLit : PyStr → PyStr → Option PyStr
  | [], s => some s
  | _ :: _, [] => none
  | c :: cs, x :: xs => if x = c then dropLit cs xs else none

/-- One anchored attempt of `re.search(r"Expose the '([^']+)' knob", ...)`.
The group `[^']+` cannot contain a quote while the pattern continues with a
quote, so backtracking cannot shorten it: the greedy group is exactly the
maximal run of non-quote characters, required non-empty. -/
def matchAt (s : PyStr) : Option PyStr :=
  match dropLit ("Expose the ".data ++ [quoteChar]) s with
  | none => none
  | some rest =>
    let grp := rest.takeWhile (fun c => !(decide (c = quoteChar)))
    if grp = [] then none
    else
      match dropLit (quoteChar :: " knob".data) (rest.drop grp.length) with
      | none => none
      | some _ => some grp

/-- `re.search`: leftmost position whose anchored attempt succeeds. -/
def regexSearch (s : PyStr) : Option PyStr :=
  match s with
  | [] => matchAt []
  | _ :: rest =>
    match matchAt s with
    | some g => some g
    | none => regexSearch rest

/-- Python `str.replace("__", "_")` (left-to-right, non-overlapping). -/
def replaceDunder : PyStr → PyStr
  | '_' :: '_' :: rest => '_' :: replaceDunder rest
  | c :: rest => c :: replaceDunder rest
  | [] => []

/-- `render_hooks._original_name_from_toggle` (the toggle object is
represented by its tooltip; `None` models a raising/absent `tooltip()`). -/
def _original_name_from_toggle (toggle_name : PyStr) (tooltip : Option PyStr) :
    PyStr :=
  match regexSearch (tooltip.getD []) with
  | some g => g
  | none => replaceDunder (toggle_name.drop togglePrefixStr.length)

end RenderHooks

lemma dropLit_append (lit : PyStr) : ∀ s, RenderHooks.dropLit lit (lit ++ s) = some s := by
  induction lit with
  | nil => intro s; rfl
  | cons c cs ih =>
    intro s
    show RenderHooks.dropLit (c :: cs) (c :: (cs ++ s)) = some s
    rw [RenderHooks.dropLit]
    rw [if_pos rfl]
    exact ih s

lemma takeWhile_nonquote (k : PyStr) (hq : quoteChar ∉ k) :
    ∀ Y, (k ++ quoteChar :: Y).takeWhile (fun c => !(decide (c = quoteChar))) = k := by
  induction k with
  | nil =>
    intro Y
    simp [List.takeWhile]
  | cons c cs ih =>
    intro Y
    have hc : c ≠ quoteChar := by
      intro hcq
      exact hq (by rw [hcq]; exact List.mem_cons_self _ _)
    have ih' := ih (fun hmem => hq (List.mem_cons_of_mem c hmem))
    simp only [List.cons_append, List.takeWhile_cons]
    rw [if_pos (by simp [hc])]
    rw [ih' Y]

/-- The counterexample to claim C10 as stated: the empty knob name contains
no single quote, yet the round-trip returns `"item"`, not the empty
string (the tooltip regex group `[^']+` cannot match an empty name). -/
theorem claim_C10_counterexample :
    RenderHooks._original_name_from_toggle
        (RenderHooks._toggle_knob_name [])
        (some (RenderHooks._whitelist_tooltip [])) = "item".data ∧
      ("item".data ≠ ([] : PyStr) ∧ quoteChar ∉ ([] : PyStr)) := by
  refine ⟨?_, by decide, by decide⟩
  decide

/-- Claim C10 (amended): for every NON-EMPTY knob name without a single
quote, `_original_name_from_toggle` applied to `_toggle_knob_name k` and a
toggle whose tooltip is `_whitelist_tooltip k` returns `k`, whatever
characters the toggle name replaced with underscores. -/
theorem claim_C10_roundtrip (k : PyStr) (hk : k ≠ []) (hq : quoteChar ∉ k) :
    RenderHooks._original_name_from_toggle
      (RenderHooks._toggle_knob_name k)
      (some (RenderHooks._whitelist_tooltip k)) = k := by
  have htt : RenderHooks._whitelist_tooltip k =
      ("Expose the ".data ++ [quoteChar]) ++
        (k ++ quoteChar :: " knob on this wrapper".data) := by
    rw [RenderHooks._whitelist_tooltip]
    simp
  have hmatch : RenderHooks.matchAt (RenderHooks._whitelist_tooltip k) = some k := by
    have htake := takeWhile_nonquote k hq (" knob on this wrapper".data)
    have hlit2 : (quoteChar :: " knob on this wrapper".data) =
        (quoteChar :: " knob".data) ++ " on this wrapper".data := by decide
    simp only [RenderHooks.matchAt, htt, dropLit_append]
    rw [htake, if_neg hk, List.drop_left, hlit2]
    simp only [dropLit_append]
  have hsearch : RenderHooks.regexSearch (RenderHooks._whitelist_tooltip k) = some k := by
    have hne : RenderHooks._whitelist_tooltip k ≠ [] := by
      rw [RenderHooks._whitelist_tooltip]
      simp
    cases htt2 : RenderHooks._whitelist_tooltip k with
    | nil => exact absurd htt2 hne
    | cons c rest =>
      rw [RenderHooks.regexSearch, ← htt2, hmatch]
  rw [RenderHooks._original_name_from_toggle]
  rw [Option.getD_some, hsearch]

/-- Witness for the amended claim C10 at a concrete knob name. -/
theorem claim_C10_witness :
    RenderHooks._original_name_from_toggle
      (RenderHooks._toggle_knob_name "file type".data)
      (some (RenderHooks._whitelist_tooltip "file type".data)) = "file type".data :=
  claim_C10_roundtrip "file type".data (by decide) (by decide)

/-! ## Claim C7: `create_variable_switch`

The node graph is modelled explicitly: a node carries a class, a name,
positions, a selection flag, string knobs, and an input assoc-list
(`setInput idx node`).  The host configuration says whether a fresh
`VariableSwitch` exposes a `patterns` knob and how many per-index `i0..`
knobs it has; `nuke.uniqueName` is modelled as the identity (a host with no
name clashes). -/

/-- Decimal rendering of a natural number (Python `f"i{idx}"`). -/
def natToStr (n : Nat) : PyStr :=
  if n = 0 then ['0']
  else ((Nat.digits 10 n).map (fun d => Char.ofNat (48 + d))).reverse

def natDictGet (d : List (Nat × Nat)) (k : Nat) : Option Nat :=
  match d with
  | [] => none
  | (k', v) :: rest => if k' = k then some v else natDictGet rest k

def natDictSet (d : List (Nat × Nat)) (k v : Nat) : List (Nat × Nat) :=
  match d with
  | [] => [(k, v)]
  | (k', v') :: rest => if k' = k then (k', v) :: rest else (k', v') :: natDictSet rest k v

lemma natDictGet_natDictSet_self (d : List (Nat × Nat)) (k v : Nat) :
    natDictGet (natDictSet d k v) k = some v := by
  induction d with
  | nil => simp [natDictSet, natDictGet]
  | cons hd tl ih =>
    obtain ⟨k', v'⟩ := hd
    by_cases h : k' = k
    · simp [natDictSet, natDictGet, h]
    · simp [natDictSet, natDictGet, h, ih]

lemma natDictGet_natDictSet_ne (d : List (Nat × Nat)) (k k' v : Nat)
    (h : k' ≠ k) : natDictGet (natDictSet d k v) k' = natDictGet d k' := by
  have hne : ¬(k = k') := fun hh => h hh.symm
  induction d with
  | nil => simp [natDictSet, natDictGet, hne]
  | cons hd tl ih =>
    obtain ⟨k0, v0⟩ := hd
    rw [natDictSet]
    by_cases h0 : k0 = k
    · rw [if_pos h0, natDictGet, natDictGet]
      subst h0
      rw [if_neg hne, if_neg hne]
    · rw [if_neg h0, natDictGet, natDictGet, ih]

structure Node7 where
  id : Nat
  klass : PyStr
  name : PyStr
  xpos : Int
  ypos : Int
  selected : Bool
  knobs : List (PyStr × PyStr)
  inputs : List (Nat × Nat)

structure Graph where
  nodes : List Node7
  nextId : Nat

structure SwitchHostCfg where
  hasPatternsKnob : Bool
  idxKnobCount : Nat

def knobGet (n : Node7) (k : PyStr) : Option PyStr := dictGet n.knobs k

def knobSet (n : Node7) (k v : PyStr) : Node7 := { n with knobs := dictSet n.knobs k v }

/-- The `i0`, `i1`, ... pattern knobs a fresh `VariableSwitch` carries. -/
def mkIdxKnobs (m : Nat) : List (PyStr × PyStr) :=
  (List.range m).map (fun k => ('i' :: natToStr k, []))

/-- A fresh `VariableSwitch` as created by `nuke.createNode`. -/
def newVariableSwitch (cfg : SwitchHostCfg) (i : Nat) : Node7 where
  id := i
  klass := "VariableSwitch".data
  name := "VariableSwitch".data
  xpos := 0
  ypos := 0
  selected := true
  knobs := [("label".data, []), ("variable".data, [])] ++
    (if cfg.hasPatternsKnob then [("patterns".data, [])] else []) ++
    mkIdxKnobs cfg.idxKnobCount
  inputs := []

namespace SwitchManager

/-- `VariantSectionWidget._force_switch_variable`: the modelled switch has a
`variable` knob, so the first `setValue` attempt succeeds. -/
def _force_switch_variable (sw : Node7) (variant : PyStr) : Node7 :=
  knobSet sw "variable".data (defaultSetName ++ '.' :: variant)

/-- The `for idx, name in enumerate(options)` loop of
`_create_switch_inputs`: one `Dot` per option, labelled and wired to input
`idx` of the switch. -/
def create_switch_inputs_go (g : Graph) (sw : Node7) (rem : List PyStr)
    (idx : Nat) (start_x target_y : Int) (switch_name : PyStr) : Graph × Node7 :=
  match rem with
  | [] => (g, sw)
  | name :: rest =>
    let dot : Node7 := {
      id := g.nextId, klass := "Dot".data,
      name := switch_name ++ '_' :: (name ++ "_Dot".data),
      xpos := start_x + (idx : Int) * 120, ypos := target_y,
      selected := false, knobs := [("label".data, name)], inputs := [] }
    let g' : Graph := { nodes := g.nodes ++ [dot], nextId := g.nextId + 1 }
    let sw' : Node7 := { sw with inputs := natDictSet sw.inputs idx dot.id }
    create_switch_inputs_go g' sw' rest (idx + 1) start_x target_y switch_name

/-- `VariantSectionWidget._create_switch_inputs`. -/
def _create_switch_inputs (g : Graph) (sw : Node7) (options : List PyStr)
    (switch_name : PyStr) : Graph × Node7 :=
  let count := options.length
  let start_x : Int :=
    if count > 0 then sw.xpos - (((count : Int) - 1) * 120) / 2 else sw.xpos
  let target_y : Int := sw.ypos - 120
  create_switch_inputs_go g sw options 0 start_x target_y switch_name

/-- The per-index fallback loop of `_populate_switch_patterns` (knobs absent
from the switch are skipped). -/
def populate_idx_go (sw : Node7) (rem : List PyStr) (idx : Nat) : Node7 :=
  match rem with
  | [] => sw
  | name :: rest =>
    match knobGet sw ('i' :: natToStr idx) with
    | none => populate_idx_go sw rest (idx + 1)
    | some _ => populate_idx_go (knobSet sw ('i' :: natToStr idx) name) rest (idx + 1)

/-- `VariantSectionWidget._populate_switch_patterns`. -/
def _populate_switch_patterns (sw : Node7) (options : List PyStr) : Node7 :=
  if options = [] then sw
  else
    match knobGet sw "patterns".data with
    | some _ =>
      knobSet sw "patterns".data (List.intercalate [Char.ofNat 10] options)
    | none => populate_idx_go sw options 0

/-- `VariantSectionWidget._style_variable_switch`. -/
def _style_variable_switch (sw : Node7) : Node7 :=
  knobSet sw "label".data "[value variable]".data

/-- `VariantSectionWidget.create_variable_switch`: the empty-name/no-option
guard, then node creation, naming, variable forcing, input wiring, pattern
population, styling, and selection. -/
def create_variable_switch (cfg : SwitchHostCfg) (g : Graph) (sec : Section) :
    Graph × List PyStr :=
  if variant_name sec = [] ∨ collect_options sec = [] then
    (g, ["Add a variant name and at least one option first.".data])
  else
    let gsw := _create_switch_inputs
      { nodes := g.nodes, nextId := g.nextId + 1 }
      (_force_switch_variable
        { newVariableSwitch cfg g.nextId with
            name := "VariableSwitch_".data ++ variant_name sec }
        (variant_name sec))
      (collect_options sec)
      ("VariableSwitch_".data ++ variant_name sec)
    ({ nodes := gsw.1.nodes ++
        [{ _style_variable_switch
            (_populate_switch_patterns gsw.2 (collect_options sec)) with
              selected := true }],
       nextId := gsw.1.nextId }, [])

end SwitchManager

lemma digitChar_inj_aux : ∀ d1 < 10, ∀ d2 < 10,
    Char.ofNat (48 + d1) = Char.ofNat (48 + d2) → d1 = d2 := by decide

lemma map_digitChar_inj : ∀ (l1 l2 : List Nat), (∀ d ∈ l1, d < 10) →
    (∀ d ∈ l2, d < 10) →
    l1.map (fun d => Char.ofNat (48 + d)) = l2.map (fun d => Char.ofNat (48 + d)) →
    l1 = l2 := by
  intro l1
  induction l1 with
  | nil =>
    intro l2 _ _ h
    cases l2 with
    | nil => rfl
    | cons d l => simp at h
  | cons d1 t1 ih =>
    intro l2 h1 h2 h
    cases l2 with
    | nil => simp at h
    | cons d2 t2 =>
      simp only [List.map_cons, List.cons.injEq] at h
      have hd : d1 = d2 :=
        digitChar_inj_aux d1 (h1 d1 (List.mem_cons_self _ _))
          d2 (h2 d2 (List.mem_cons_self _ _)) h.1
      have ht : t1 = t2 :=
        ih t2 (fun d hd => h1 d (List.mem_cons_of_mem _ hd))
          (fun d hd => h2 d (List.mem_cons_of_mem _ hd)) h.2
      rw [hd, ht]

lemma digits_lt_ten (n : Nat) : ∀ d ∈ Nat.digits 10 n, d < 10 := by
  intro d hd
  exact Nat.digits_lt_base (by norm_num) hd

lemma natToStr_singleton_zero {n : Nat} (hn : n ≠ 0)
    (h : natToStr n = ['0']) : False := by
  rw [natToStr, if_neg hn] at h
  have hmap : (Nat.digits 10 n).map (fun d => Char.ofNat (48 + d)) = ['0'] := by
    have := congrArg List.reverse h
    rwa [List.reverse_reverse] at this
  cases hdig : Nat.digits 10 n with
  | nil => rw [hdig] at hmap; simp at hmap
  | cons d rest =>
    rw [hdig] at hmap
    simp only [List.map_cons, List.cons.injEq] at hmap
    have hrest : rest = [] := by
      have := hmap.2
      cases rest with
      | nil => rfl
      | cons x xs => simp at this
    have hd10 : d < 10 := digits_lt_ten n d (by rw [hdig]; exact List.mem_cons_self _ _)
    have hd0 : d = 0 := by
      refine digitChar_inj_aux d hd10 0 (by norm_num) ?_
      rw [hmap.1]
    have hofd := Nat.ofDigits_digits 10 n
    rw [hdig, hrest, hd0] at hofd
    have hz : Nat.ofDigits 10 [0] = 0 := by simp [Nat.ofDigits]
    rw [hz] at hofd
    exact hn hofd.symm

lemma natToStr_inj {m n : Nat} (h : natToStr m = natToStr n) : m = n := by
  by_cases hm : m = 0 <;> by_cases hn : n = 0
  · rw [hm, hn]
  · subst hm
    have h0 : natToStr 0 = ['0'] := by simp [natToStr]
    rw [h0] at h
    exact absurd h.symm (fun hh => natToStr_singleton_zero hn hh)
  · subst hn
    have h0 : natToStr 0 = ['0'] := by simp [natToStr]
    rw [h0] at h
    exact absurd h (fun hh => natToStr_singleton_zero hm hh)
  · rw [natToStr, if_neg hm, natToStr, if_neg hn] at h
    have hmap := congrArg List.reverse h
    rw [List.reverse_reverse, List.reverse_reverse] at hmap
    have hdig : Nat.digits 10 m = Nat.digits 10 n :=
      map_digitChar_inj _ _ (digits_lt_ten m) (digits_lt_ten n) hmap
    have h1 := Nat.ofDigits_digits 10 m
    have h2 := Nat.ofDigits_digits 10 n
    rw [hdig] at h1
    rw [← h1, h2]

lemma cons_ne_of_head {c c' : Char} {r r' : PyStr} (h : c ≠ c') :
    (c :: r) ≠ (c' :: r') := by
  intro he
  injection he with h1 _
  exact h h1

lemma iKey_ne_iKey {j j' : Nat} (h : j ≠ j') :
    ('i' :: natToStr j) ≠ ('i' :: natToStr j') := by
  intro he
  injection he with _ h2
  exact h (natToStr_inj h2)

lemma knobGet_knobSet_self (n : Node7) (k v : PyStr) :
    knobGet (knobSet n k v) k = some v :=
  dictGet_dictSet_self n.knobs k v

lemma knobGet_knobSet_ne (n : Node7) (k k' v : PyStr) (h : k' ≠ k) :
    knobGet (knobSet n k v) k' = knobGet n k' :=
  dictGet_dictSet_ne n.knobs k k' v h

lemma knobGet_congr {n m : Node7} (h : n.knobs = m.knobs) (k : PyStr) :
    knobGet n k = knobGet m k := by
  unfold knobGet
  rw [h]

lemma dictGet_append {α : Type} (l1 l2 : List (PyStr × α)) (k : PyStr) :
    dictGet (l1 ++ l2) k =
      (match dictGet l1 k with
       | some v => some v
       | none => dictGet l2 k) := by
  induction l1 with
  | nil => simp [dictGet]
  | cons hd tl ih =>
    obtain ⟨k', v'⟩ := hd
    by_cases h : k' = k
    · simp [dictGet, h]
    · rw [List.cons_append, dictGet, if_neg h, ih, dictGet, if_neg h]

lemma dictGet_mkIdxKnobs {m j : Nat} (hj : j < m) :
    dictGet (mkIdxKnobs m) ('i' :: natToStr j) = some [] := by
  induction m with
  | zero => exact absurd hj (by omega)
  | succ m ih =>
    have hsplit : mkIdxKnobs (m + 1) = mkIdxKnobs m ++ [('i' :: natToStr m, [])] := by
      rw [mkIdxKnobs, List.range_succ, List.map_append]
      rfl
    rw [hsplit, dictGet_append]
    by_cases hjm : j < m
    · rw [ih hjm]
    · have hj' : j = m := by omega
      subst hj'
      have hnone : dictGet (mkIdxKnobs j) ('i' :: natToStr j) = none := by
        rw [dictGet_eq_none_iff]
        intro hmem
        rw [mkIdxKnobs] at hmem
        simp only [dictKeys, List.map_map, List.mem_map] at hmem
        obtain ⟨k, hk, hkey⟩ := hmem
        rw [List.mem_range] at hk
        exact iKey_ne_iKey (by omega) hkey
      rw [hnone]
      simp [dictGet]

lemma dictGet_mkIdxKnobs_none {m j : Nat} (hj : m ≤ j) :
    dictGet (mkIdxKnobs m) ('i' :: natToStr j) = none := by
  rw [dictGet_eq_none_iff]
  intro hmem
  rw [mkIdxKnobs] at hmem
  simp only [dictKeys, List.map_map, List.mem_map] at hmem
  obtain ⟨k, hk, hkey⟩ := hmem
  rw [List.mem_range] at hk
  exact iKey_ne_iKey (by omega) hkey

lemma csig_knobs (rem : List PyStr) :
    ∀ g sw idx sx ty nm,
      ((SwitchManager.create_switch_inputs_go g sw rem idx sx ty nm).2).knobs = sw.knobs := by
  induction rem with
  | nil => intro g sw idx sx ty nm; rfl
  | cons name rest ih =>
    intro g sw idx sx ty nm
    rw [SwitchManager.create_switch_inputs_go]
    exact ih _ _ _ _ _ _

lemma csig_klass (rem : List PyStr) :
    ∀ g sw idx sx ty nm,
      ((SwitchManager.create_switch_inputs_go g sw rem idx sx ty nm).2).klass = sw.klass := by
  induction rem with
  | nil => intro g sw idx sx ty nm; rfl
  | cons name rest ih =>
    intro g sw idx sx ty nm
    rw [SwitchManager.create_switch_inputs_go]
    exact ih _ _ _ _ _ _

lemma csig_nodes_mono (rem : List PyStr) :
    ∀ g sw idx sx ty nm x, x ∈ g.nodes →
      x ∈ ((SwitchManager.create_switch_inputs_go g sw rem idx sx ty nm).1).nodes := by
  induction rem with
  | nil => intro g sw idx sx ty nm x hx; exact hx
  | cons name rest ih =>
    intro g sw idx sx ty nm x hx
    rw [SwitchManager.create_switch_inputs_go]
    exact ih _ _ _ _ _ _ x (List.mem_append_left _ hx)

lemma csig_inputs_lt (rem : List PyStr) :
    ∀ g sw idx sx ty nm k, k < idx →
      natDictGet ((SwitchManager.create_switch_inputs_go g sw rem idx sx ty nm).2).inputs k =
        natDictGet sw.inputs k := by
  induction rem with
  | nil => intro g sw idx sx ty nm k _; rfl
  | cons name rest ih =>
    intro g sw idx sx ty nm k hk
    rw [SwitchManager.create_switch_inputs_go]
    rw [ih _ _ _ _ _ _ k (by omega)]
    exact natDictGet_natDictSet_ne sw.inputs idx k g.nextId (by omega)

lemma csig_spec (rem : List PyStr) :
    ∀ g sw idx sx ty nm i (hi : i < rem.length),
      ∃ dot, dot ∈ ((SwitchManager.create_switch_inputs_go g sw rem idx sx ty nm).1).nodes ∧
        dot.klass = "Dot".data ∧
        knobGet dot "label".data = some (rem.get ⟨i, hi⟩) ∧
        natDictGet ((SwitchManager.create_switch_inputs_go g sw rem idx sx ty nm).2).inputs
          (idx + i) = some dot.id := by
  induction rem with
  | nil => intro g sw idx sx ty nm i hi; exact absurd hi (by simp)
  | cons name rest ih =>
    intro g sw idx sx ty nm i hi
    rw [SwitchManager.create_switch_inputs_go]
    cases i with
    | zero =>
      refine ⟨(⟨g.nextId, "Dot".data, nm ++ '_' :: (name ++ "_Dot".data),
        sx + (idx : Int) * 120, ty, false, [("label".data, name)], []⟩ : Node7),
        ?_, rfl, rfl, ?_⟩
      · exact csig_nodes_mono rest _ _ _ _ _ _ _
          (List.mem_append_right _ (List.mem_singleton_self _))
      · simp only [Nat.add_zero]
        rw [csig_inputs_lt rest _ _ (idx + 1) sx ty nm idx (by omega)]
        exact natDictGet_natDictSet_self sw.inputs idx g.nextId
    | succ j =>
      have hj : j < rest.length := by
        simp only [List.length_cons] at hi
        omega
      obtain ⟨dot, hmem, hklass, hlabel, hinput⟩ := ih _ _ (idx + 1) sx ty nm j hj
      refine ⟨dot, hmem, hklass, ?_, ?_⟩
      · rw [hlabel]
        rfl
      · rw [← hinput]
        congr 1
        omega

lemma pig_klass (rem : List PyStr) :
    ∀ sw idx, (SwitchManager.populate_idx_go sw rem idx).klass = sw.klass := by
  induction rem with
  | nil => intro sw idx; rfl
  | cons name rest ih =>
    intro sw idx
    rw [SwitchManager.populate_idx_go]
    cases knobGet sw ('i' :: natToStr idx) with
    | none => exact ih sw (idx + 1)
    | some v => exact ih _ (idx + 1)

lemma pig_inputs (rem : List PyStr) :
    ∀ sw idx, (SwitchManager.populate_idx_go sw rem idx).inputs = sw.inputs := by
  induction rem with
  | nil => intro sw idx; rfl
  | cons name rest ih =>
    intro sw idx
    rw [SwitchManager.populate_idx_go]
    cases knobGet sw ('i' :: natToStr idx) with
    | none => exact ih sw (idx + 1)
    | some v => exact ih _ (idx + 1)

lemma pig_preserve (rem : List PyStr) :
    ∀ sw idx k, (∀ j, k ≠ 'i' :: natToStr j) →
      knobGet (SwitchManager.populate_idx_go sw rem idx) k = knobGet sw k := by
  induction rem with
  | nil => intro sw idx k _; rfl
  | cons name rest ih =>
    intro sw idx k hk
    rw [SwitchManager.populate_idx_go]
    cases knobGet sw ('i' :: natToStr idx) with
    | none => exact ih sw (idx + 1) k hk
    | some v =>
      rw [ih _ (idx + 1) k hk]
      exact knobGet_knobSet_ne sw _ k name (hk idx)

lemma pig_preserve_lt (rem : List PyStr) :
    ∀ sw idx j, j < idx →
      knobGet (SwitchManager.populate_idx_go sw rem idx) ('i' :: natToStr j) =
        knobGet sw ('i' :: natToStr j) := by
  induction rem with
  | nil => intro sw idx j _; rfl
  | cons name rest ih =>
    intro sw idx j hj
    rw [SwitchManager.populate_idx_go]
    cases knobGet sw ('i' :: natToStr idx) with
    | none => exact ih sw (idx + 1) j (by omega)
    | some v =>
      rw [ih _ (idx + 1) j (by omega)]
      exact knobGet_knobSet_ne sw _ _ name (iKey_ne_iKey (by omega))

lemma pig_spec (rem : List PyStr) :
    ∀ sw idx,
      (∀ j, j < rem.length → (knobGet sw ('i' :: natToStr (idx + j))).isSome = true) →
      ∀ i (hi : i < rem.length),
        knobGet (SwitchManager.populate_idx_go sw rem idx) ('i' :: natToStr (idx + i)) =
          some (rem.get ⟨i, hi⟩) := by
  induction rem with
  | nil => intro sw idx _ i hi; exact absurd hi (by simp)
  | cons name rest ih =>
    intro sw idx hpre i hi
    rw [SwitchManager.populate_idx_go]
    have h0 := hpre 0 (by simp)
    rw [Nat.add_zero] at h0
    cases hknob : knobGet sw ('i' :: natToStr idx) with
    | none => rw [hknob] at h0; simp at h0
    | some v =>
      show knobGet (SwitchManager.populate_idx_go
          (knobSet sw ('i' :: natToStr idx) name) rest (idx + 1))
          ('i' :: natToStr (idx + i)) = some ((name :: rest).get ⟨i, hi⟩)
      have hpre' : ∀ j, j < rest.length →
          (knobGet (knobSet sw ('i' :: natToStr idx) name)
            ('i' :: natToStr (idx + 1 + j))).isSome = true := by
        intro j hj
        rw [knobGet_knobSet_ne sw _ _ name (iKey_ne_iKey (by omega))]
        have := hpre (j + 1) (by simp; omega)
        rwa [show idx + (j + 1) = idx + 1 + j by omega] at this
      cases i with
      | zero =>
        show knobGet (SwitchManager.populate_idx_go
            (knobSet sw ('i' :: natToStr idx) name) rest (idx + 1))
            ('i' :: natToStr idx) = some name
        rw [pig_preserve_lt rest _ (idx + 1) idx (by omega)]
        rw [knobGet_knobSet_self]
      | succ j =>
        have hj : j < rest.length := by
          simp only [List.length_cons] at hi
          omega
        have := ih (knobSet sw ('i' :: natToStr idx) name) (idx + 1) hpre' j hj
        rw [show idx + (j + 1) = idx + 1 + j by omega]
        rw [this]
        rfl

lemma label_ne_iKey (j : Nat) : "label".data ≠ 'i' :: natToStr j := by
  rw [show "label".data = 'l' :: "abel".data from rfl]
  exact cons_ne_of_head (by decide)

lemma variable_ne_iKey (j : Nat) : "variable".data ≠ 'i' :: natToStr j := by
  rw [show "variable".data = 'v' :: "ariable".data from rfl]
  exact cons_ne_of_head (by decide)

lemma patterns_ne_iKey (j : Nat) : "patterns".data ≠ 'i' :: natToStr j := by
  rw [show "patterns".data = 'p' :: "atterns".data from rfl]
  exact cons_ne_of_head (by decide)

lemma dictGet_cons {α : Type} (k' : PyStr) (v : α) (rest : List (PyStr × α))
    (k : PyStr) :
    dictGet ((k', v) :: rest) k = if k' = k then some v else dictGet rest k := rfl

lemma knobGet_newVS_variable (cfg : SwitchHostCfg) (i : Nat) :
    knobGet (newVariableSwitch cfg i) "variable".data = some [] := by
  show dictGet ([("label".data, ([] : PyStr)), ("variable".data, [])] ++
    (if cfg.hasPatternsKnob then [("patterns".data, [])] else []) ++
    mkIdxKnobs cfg.idxKnobCount) "variable".data = some []
  rw [List.append_assoc, List.cons_append, dictGet_cons, if_neg (by decide),
    List.cons_append, dictGet_cons, if_pos rfl]

lemma knobGet_newVS_patterns_true (cfg : SwitchHostCfg) (i : Nat)
    (h : cfg.hasPatternsKnob = true) :
    knobGet (newVariableSwitch cfg i) "patterns".data = some [] := by
  show dictGet ([("label".data, ([] : PyStr)), ("variable".data, [])] ++
    (if cfg.hasPatternsKnob then [("patterns".data, [])] else []) ++
    mkIdxKnobs cfg.idxKnobCount) "patterns".data = some []
  rw [h, if_pos rfl]
  rw [List.append_assoc, List.cons_append, dictGet_cons, if_neg (by decide),
    List.cons_append, dictGet_cons, if_neg (by decide), List.nil_append,
    List.cons_append, dictGet_cons, if_pos rfl]

lemma knobGet_newVS_patterns_false (cfg : SwitchHostCfg) (i : Nat)
    (h : cfg.hasPatternsKnob = false) :
    knobGet (newVariableSwitch cfg i) "patterns".data = none := by
  show dictGet ([("label".data, ([] : PyStr)), ("variable".data, [])] ++
    (if cfg.hasPatternsKnob then [("patterns".data, [])] else []) ++
    mkIdxKnobs cfg.idxKnobCount) "patterns".data = none
  rw [h, if_neg (by decide)]
  rw [List.append_assoc, List.cons_append, dictGet_cons, if_neg (by decide),
    List.cons_append, dictGet_cons, if_neg (by decide), List.nil_append,
    List.nil_append]
  rw [dictGet_eq_none_iff]
  intro hmem
  rw [mkIdxKnobs] at hmem
  simp only [dictKeys, List.map_map, List.mem_map] at hmem
  obtain ⟨k, _, hkey⟩ := hmem
  exact patterns_ne_iKey k hkey.symm

lemma knobGet_newVS_idx (cfg : SwitchHostCfg) (i j : Nat)
    (hj : j < cfg.idxKnobCount) :
    knobGet (newVariableSwitch cfg i) ('i' :: natToStr j) = some [] := by
  show dictGet ([("label".data, ([] : PyStr)), ("variable".data, [])] ++
    (if cfg.hasPatternsKnob then [("patterns".data, [])] else []) ++
    mkIdxKnobs cfg.idxKnobCount) ('i' :: natToStr j) = some []
  rw [List.append_assoc, List.cons_append, dictGet_cons, if_neg (label_ne_iKey j),
    List.cons_append, dictGet_cons, if_neg (variable_ne_iKey j), List.nil_append]
  cases hp : cfg.hasPatternsKnob with
  | true =>
    rw [if_pos rfl, List.cons_append, dictGet_cons, if_neg (patterns_ne_iKey j),
      List.nil_append]
    exact dictGet_mkIdxKnobs hj
  | false =>
    rw [if_neg (by simp), List.nil_append]
    exact dictGet_mkIdxKnobs hj

lemma cs_knobs (g : Graph) (sw : Node7) (options : List PyStr) (nm : PyStr) :
    ((SwitchManager._create_switch_inputs g sw options nm).2).knobs = sw.knobs := by
  simp only [SwitchManager._create_switch_inputs]
  exact csig_knobs options _ _ _ _ _ _

lemma cs_klass (g : Graph) (sw : Node7) (options : List PyStr) (nm : PyStr) :
    ((SwitchManager._create_switch_inputs g sw options nm).2).klass = sw.klass := by
  simp only [SwitchManager._create_switch_inputs]
  exact csig_klass options _ _ _ _ _ _

lemma cs_spec (g : Graph) (sw : Node7) (options : List PyStr) (nm : PyStr)
    (i : Nat) (hi : i < options.length) :
    ∃ dot, dot ∈ ((SwitchManager._create_switch_inputs g sw options nm).1).nodes ∧
      dot.klass = "Dot".data ∧
      knobGet dot "label".data = some (options.get ⟨i, hi⟩) ∧
      natDictGet ((SwitchManager._create_switch_inputs g sw options nm).2).inputs i =
        some dot.id := by
  simp only [SwitchManager._create_switch_inputs]
  have h := csig_spec options g sw 0
    (if options.length > 0 then
      sw.xpos - (((options.length : Int)) - 1) * 120 / 2 else sw.xpos)
    (sw.ypos - 120) nm i hi
  rwa [Nat.zero_add] at h

lemma knobGet_selected (n : Node7) (b : Bool) (k : PyStr) :
    knobGet { n with selected := b } k = knobGet n k := rfl

lemma knobSet_klass (n : Node7) (k v : PyStr) : (knobSet n k v).klass = n.klass := rfl

lemma knobSet_inputs (n : Node7) (k v : PyStr) : (knobSet n k v).inputs = n.inputs := rfl

lemma pipeline_spec (cfg : SwitchHostCfg) (g1 : Graph) (sw2 : Node7)
    (options : List PyStr) (nm variant : PyStr) (ho : options ≠ [])
    (hklass : sw2.klass = "VariableSwitch".data)
    (hvar : knobGet sw2 "variable".data = some (defaultSetName ++ '.' :: variant))
    (hpat : cfg.hasPatternsKnob = true → knobGet sw2 "patterns".data = some [])
    (hnopat : cfg.hasPatternsKnob = false → knobGet sw2 "patterns".data = none)
    (hidx : ∀ j, j < cfg.idxKnobCount → knobGet sw2 ('i' :: natToStr j) = some []) :
    ({ SwitchManager._style_variable_switch
        (SwitchManager._populate_switch_patterns
          (SwitchManager._create_switch_inputs g1 sw2 options nm).2 options) with
        selected := true } : Node7).klass = "VariableSwitch".data ∧
    knobGet ({ SwitchManager._style_variable_switch
        (SwitchManager._populate_switch_patterns
          (SwitchManager._create_switch_inputs g1 sw2 options nm).2 options) with
        selected := true } : Node7) "variable".data =
      some (defaultSetName ++ '.' :: variant) ∧
    (∀ i (hi : i < options.length),
      ∃ dot, dot ∈ ((SwitchManager._create_switch_inputs g1 sw2 options nm).1).nodes ∧
        dot.klass = "Dot".data ∧
        knobGet dot "label".data = some (options.get ⟨i, hi⟩) ∧
        natDictGet ({ SwitchManager._style_variable_switch
          (SwitchManager._populate_switch_patterns
            (SwitchManager._create_switch_inputs g1 sw2 options nm).2 options) with
          selected := true } : Node7).inputs i = some dot.id) ∧
    (cfg.hasPatternsKnob = true →
      knobGet ({ SwitchManager._style_variable_switch
        (SwitchManager._populate_switch_patterns
          (SwitchManager._create_switch_inputs g1 sw2 options nm).2 options) with
        selected := true } : Node7) "patterns".data =
        some (List.intercalate [Char.ofNat 10] options)) ∧
    (cfg.hasPatternsKnob = false → options.length ≤ cfg.idxKnobCount →
      ∀ i (hi : i < options.length),
        knobGet ({ SwitchManager._style_variable_switch
          (SwitchManager._populate_switch_patterns
            (SwitchManager._create_switch_inputs g1 sw2 options nm).2 options) with
          selected := true } : Node7) ('i' :: natToStr i) =
          some (options.get ⟨i, hi⟩)) := by
  have hg3 : ∀ k, knobGet ((SwitchManager._create_switch_inputs g1 sw2 options nm).2) k =
      knobGet sw2 k :=
    fun k => knobGet_congr (cs_knobs g1 sw2 options nm) k
  have hg3klass : ((SwitchManager._create_switch_inputs g1 sw2 options nm).2).klass =
      "VariableSwitch".data := (cs_klass g1 sw2 options nm).trans hklass
  cases hp : cfg.hasPatternsKnob with
  | true =>
    have hps : knobGet ((SwitchManager._create_switch_inputs g1 sw2 options nm).2)
        "patterns".data = some [] := (hg3 _).trans (hpat hp)
    have hsw4 : SwitchManager._populate_switch_patterns
        ((SwitchManager._create_switch_inputs g1 sw2 options nm).2) options =
        knobSet ((SwitchManager._create_switch_inputs g1 sw2 options nm).2)
          "patterns".data (List.intercalate [Char.ofNat 10] options) := by
      rw [SwitchManager._populate_switch_patterns, if_neg ho]
      simp only [hps]
    refine ⟨?_, ?_, ?_, ?_, ?_⟩
    · show (SwitchManager._populate_switch_patterns _ options).klass = _
      rw [hsw4, knobSet_klass]
      exact hg3klass
    · rw [knobGet_selected]
      show knobGet (knobSet (SwitchManager._populate_switch_patterns _ options)
        "label".data "[value variable]".data) "variable".data = _
      rw [knobGet_knobSet_ne _ _ _ _ (by decide), hsw4,
        knobGet_knobSet_ne _ _ _ _ (by decide)]
      exact (hg3 _).trans hvar
    · intro i hi
      obtain ⟨dot, hmem, hkl, hlab, hinp⟩ := cs_spec g1 sw2 options nm i hi
      refine ⟨dot, hmem, hkl, hlab, ?_⟩
      show natDictGet (knobSet (SwitchManager._populate_switch_patterns _ options)
        "label".data "[value variable]".data).inputs i = _
      rw [knobSet_inputs, hsw4, knobSet_inputs]
      exact hinp
    · intro _
      rw [knobGet_selected]
      show knobGet (knobSet (SwitchManager._populate_switch_patterns _ options)
        "label".data "[value variable]".data) "patterns".data = _
      rw [knobGet_knobSet_ne _ _ _ _ (by decide), hsw4, knobGet_knobSet_self]
    · intro hcontra
      exact absurd hcontra (by simp)
  | false =>
    have hps : knobGet ((SwitchManager._create_switch_inputs g1 sw2 options nm).2)
        "patterns".data = none := (hg3 _).trans (hnopat hp)
    have hsw4 : SwitchManager._populate_switch_patterns
        ((SwitchManager._create_switch_inputs g1 sw2 options nm).2) options =
        SwitchManager.populate_idx_go
          ((SwitchManager._create_switch_inputs g1 sw2 options nm).2) options 0 := by
      rw [SwitchManager._populate_switch_patterns, if_neg ho]
      simp only [hps]
    refine ⟨?_, ?_, ?_, ?_, ?_⟩
    · show (SwitchManager._populate_switch_patterns _ options).klass = _
      rw [hsw4, pig_klass]
      exact hg3klass
    · rw [knobGet_selected]
      show knobGet (knobSet (SwitchManager._populate_switch_patterns _ options)
        "label".data "[value variable]".data) "variable".data = _
      rw [knobGet_knobSet_ne _ _ _ _ (by decide), hsw4,
        pig_preserve options _ 0 _ variable_ne_iKey]
      exact (hg3 _).trans hvar
    · intro i hi
      obtain ⟨dot, hmem, hkl, hlab, hinp⟩ := cs_spec g1 sw2 options nm i hi
      refine ⟨dot, hmem, hkl, hlab, ?_⟩
      show natDictGet (knobSet (SwitchManager._populate_switch_patterns _ options)
        "label".data "[value variable]".data).inputs i = _
      rw [knobSet_inputs, hsw4, pig_inputs]
      exact hinp
    · intro hcontra
      exact absurd hcontra (by simp)
    · intro _ hlen i hi
      rw [knobGet_selected]
      show knobGet (knobSet (SwitchManager._populate_switch_patterns _ options)
        "label".data "[value variable]".data) ('i' :: natToStr i) = _
      rw [knobGet_knobSet_ne _ _ _ _ (fun hh => label_ne_iKey i hh.symm), hsw4]
      have hpre : ∀ j, j < options.length →
          (knobGet ((SwitchManager._create_switch_inputs g1 sw2 options nm).2)
            ('i' :: natToStr (0 + j))).isSome = true := by
        intro j hj
        rw [Nat.zero_add, hg3, hidx j (by omega)]
        rfl
      have := pig_spec options _ 0 hpre i hi
      rwa [Nat.zero_add] at this

/-- The switch name `VariableSwitch_<variant>` (uniqueName is the identity). -/
def cvsName (sec : Section) : PyStr :=
  "VariableSwitch_".data ++ SwitchManager.variant_name sec

/-- The named switch with its variable knob forced, as built by
`create_variable_switch` before wiring. -/
def cvsSw2 (cfg : SwitchHostCfg) (g : Graph) (sec : Section) : Node7 :=
  SwitchManager._force_switch_variable
    { newVariableSwitch cfg g.nextId with name := cvsName sec }
    (SwitchManager.variant_name sec)

/-- The graph and switch after `_create_switch_inputs`. -/
def cvsGsw (cfg : SwitchHostCfg) (g : Graph) (sec : Section) : Graph × Node7 :=
  SwitchManager._create_switch_inputs { nodes := g.nodes, nextId := g.nextId + 1 }
    (cvsSw2 cfg g sec) (SwitchManager.collect_options sec) (cvsName sec)

/-- The finished switch after pattern population, styling, and selection. -/
def cvsSw6 (cfg : SwitchHostCfg) (g : Graph) (sec : Section) : Node7 :=
  { SwitchManager._style_variable_switch
      (SwitchManager._populate_switch_patterns (cvsGsw cfg g sec).2
        (SwitchManager.collect_options sec)) with selected := true }

lemma cvs_eq (cfg : SwitchHostCfg) (g : Graph) (sec : Section)
    (h : ¬(SwitchManager.variant_name sec = [] ∨
      SwitchManager.collect_options sec = [])) :
    SwitchManager.create_variable_switch cfg g sec =
      ({ nodes := (cvsGsw cfg g sec).1.nodes ++ [cvsSw6 cfg g sec],
         nextId := (cvsGsw cfg g sec).1.nextId }, []) := by
  rw [SwitchManager.create_variable_switch, if_neg h]
  rfl

/-- Claim C7: for a section with a non-empty sanitized variant name and at
least one option, `create_variable_switch` produces a `VariableSwitch` whose
`variable` knob is `__default__.<variant>`, one labelled `Dot` per option
wired so that the i-th option's dot feeds input i, and the `patterns` knob
set to the newline-joined option names (with the per-index `i0..i(n-1)`
fallback when the switch has no `patterns` knob); with an empty name or no
options, no node is created and a message is shown. -/
theorem claim_C7_create_variable_switch (cfg : SwitchHostCfg) (g : Graph)
    (sec : Section) :
    ((SwitchManager.variant_name sec = [] ∨ SwitchManager.collect_options sec = []) →
      SwitchManager.create_variable_switch cfg g sec =
        (g, ["Add a variant name and at least one option first.".data])) ∧
    (SwitchManager.variant_name sec ≠ [] → SwitchManager.collect_options sec ≠ [] →
      ∃ sw, sw ∈ ((SwitchManager.create_variable_switch cfg g sec).1).nodes ∧
        (SwitchManager.create_variable_switch cfg g sec).2 = [] ∧
        sw.klass = "VariableSwitch".data ∧
        knobGet sw "variable".data =
          some (defaultSetName ++ '.' :: SwitchManager.variant_name sec) ∧
        (∀ i (hi : i < (SwitchManager.collect_options sec).length),
          ∃ dot, dot ∈ ((SwitchManager.create_variable_switch cfg g sec).1).nodes ∧
            dot.klass = "Dot".data ∧
            knobGet dot "label".data =
              some ((SwitchManager.collect_options sec).get ⟨i, hi⟩) ∧
            natDictGet sw.inputs i = some dot.id) ∧
        (cfg.hasPatternsKnob = true →
          knobGet sw "patterns".data =
            some (List.intercalate [Char.ofNat 10]
              (SwitchManager.collect_options sec))) ∧
        (cfg.hasPatternsKnob = false →
          (SwitchManager.collect_options sec).length ≤ cfg.idxKnobCount →
          ∀ i (hi : i < (SwitchManager.collect_options sec).length),
            knobGet sw ('i' :: natToStr i) =
              some ((SwitchManager.collect_options sec).get ⟨i, hi⟩))) := by
  constructor
  · intro hcond
    rw [SwitchManager.create_variable_switch, if_pos hcond]
  · intro hv ho
    have hcond : ¬(SwitchManager.variant_name sec = [] ∨
        SwitchManager.collect_options sec = []) := by
      rw [not_or]
      exact ⟨hv, ho⟩
    have hpat : cfg.hasPatternsKnob = true →
        knobGet (cvsSw2 cfg g sec) "patterns".data = some [] := by
      intro hp
      show knobGet (knobSet { newVariableSwitch cfg g.nextId with name := cvsName sec }
        "variable".data
        (defaultSetName ++ '.' :: SwitchManager.variant_name sec)) "patterns".data =
        some []
      rw [knobGet_knobSet_ne _ _ _ _ (by decide)]
      exact knobGet_newVS_patterns_true cfg g.nextId hp
    have hnopat : cfg.hasPatternsKnob = false →
        knobGet (cvsSw2 cfg g sec) "patterns".data = none := by
      intro hp
      show knobGet (knobSet { newVariableSwitch cfg g.nextId with name := cvsName sec }
        "variable".data
        (defaultSetName ++ '.' :: SwitchManager.variant_name sec)) "patterns".data =
        none
      rw [knobGet_knobSet_ne _ _ _ _ (by decide)]
      exact knobGet_newVS_patterns_false cfg g.nextId hp
    have hidx : ∀ j, j < cfg.idxKnobCount →
        knobGet (cvsSw2 cfg g sec) ('i' :: natToStr j) = some [] := by
      intro j hj
      show knobGet (knobSet { newVariableSwitch cfg g.nextId with name := cvsName sec }
        "variable".data
        (defaultSetName ++ '.' :: SwitchManager.variant_name sec))
        ('i' :: natToStr j) = some []
      rw [knobGet_knobSet_ne _ _ _ _ (fun hh => variable_ne_iKey j hh.symm)]
      exact knobGet_newVS_idx cfg g.nextId j hj
    obtain ⟨hA, hB, hC, hD, hE⟩ := pipeline_spec cfg
      { nodes := g.nodes, nextId := g.nextId + 1 } (cvsSw2 cfg g sec)
      (SwitchManager.collect_options sec) (cvsName sec)
      (SwitchManager.variant_name sec) ho rfl (knobGet_knobSet_self _ _ _)
      hpat hnopat hidx
    rw [cvs_eq cfg g sec hcond]
    refine ⟨cvsSw6 cfg g sec,
      List.mem_append_right _ (List.mem_singleton_self _), rfl,
      hA, hB, ?_, hD, hE⟩
    intro i hi
    obtain ⟨dot, hmem, hkl, hlab, hinp⟩ := hC i hi
    exact ⟨dot, List.mem_append_left _ hmem, hkl, hlab, hinp⟩

/-- Witness for claim C7: a section named `screens` with one option. -/
theorem claim_C7_witness :
    ∃ sw, sw ∈ ((SwitchManager.create_variable_switch ⟨true, 0⟩ ⟨[], 0⟩
        ⟨"screens".data, ["a".data], []⟩).1).nodes ∧
      (SwitchManager.create_variable_switch ⟨true, 0⟩ ⟨[], 0⟩
        ⟨"screens".data, ["a".data], []⟩).2 = [] ∧
      sw.klass = "VariableSwitch".data ∧
      knobGet sw "variable".data =
        some (defaultSetName ++ '.' ::
          SwitchManager.variant_name ⟨"screens".data, ["a".data], []⟩) ∧
      (∀ i (hi : i < (SwitchManager.collect_options
          ⟨"screens".data, ["a".data], []⟩).length),
        ∃ dot, dot ∈ ((SwitchManager.create_variable_switch ⟨true, 0⟩ ⟨[], 0⟩
            ⟨"screens".data, ["a".data], []⟩).1).nodes ∧
          dot.klass = "Dot".data ∧
          knobGet dot "label".data =
            some ((SwitchManager.collect_options
              ⟨"screens".data, ["a".data], []⟩).get ⟨i, hi⟩) ∧
          natDictGet sw.inputs i = some dot.id) ∧
      ((⟨true, 0⟩ : SwitchHostCfg).hasPatternsKnob = true →
        knobGet sw "patterns".data =
          some (List.intercalate [Char.ofNat 10]
            (SwitchManager.collect_options ⟨"screens".data, ["a".data], []⟩))) ∧
      ((⟨true, 0⟩ : SwitchHostCfg).hasPatternsKnob = false →
        (SwitchManager.collect_options ⟨"screens".data, ["a".data], []⟩).length ≤
          (⟨true, 0⟩ : SwitchHostCfg).idxKnobCount →
        ∀ i (hi : i < (SwitchManager.collect_options
            ⟨"screens".data, ["a".data], []⟩).length),
          knobGet sw ('i' :: natToStr i) =
            some ((SwitchManager.collect_options
              ⟨"screens".data, ["a".data], []⟩).get ⟨i, hi⟩)) :=
  (claim_C7_create_variable_switch ⟨true, 0⟩ ⟨[], 0⟩
    ⟨"screens".data, ["a".data], []⟩).2 (by decide) (by decide)
